import Mathlib

/-!
# nix-serve: the request-handling layer

A shallow embedding of `src/server.cpp` (class `Server`): the route operations
`getNixCacheInfo`, `getNarInfo`, `getNar`, `getNarDeprecated`, `getRealisation`,
the exception handler `handleException`, and the route table registered in
`Server::listen`.  The single-file variant `nix-serve.cpp` registers lambdas
with the same bodies.  The handler of the `--listen` flag of `src/main.cpp` is
`MyArgs.listen`.

A C++ `std::string` is a Lean `String`, one `Char` standing for one `char`.
The nix library and the store it opens are not part of this repository; what
the server calls is collected in the structure `Nix`, whose fields are
parameters of every statement.  A call that can throw a `nix::Error` returns an
`Except String _` carrying the text of `what()`.  The HTTP library is modelled
by `Response`, `Request`, `regex_match`, `lookup` and `process_request`.
-/

namespace NixServe

/-! ## Values of the nix library -/

/-- A `nix::StorePath`: the base name `<hash>-<name>` of a store object. -/
structure StorePath where
  baseName : String
deriving DecidableEq, Repr

/-- A `nix::Hash`: the digest bytes; `==` compares them. -/
structure Hash where
  bytes : List Nat
deriving DecidableEq, Repr

/-- The fields of `nix::ValidPathInfo` read by the server.  `narSize` is a
`uint64_t`; `references` is the iteration sequence of the `StorePathSet`. -/
structure ValidPathInfo where
  path : StorePath
  narHash : Hash
  narSize : Nat
  references : List StorePath
  deriver : Option StorePath
deriving DecidableEq, Repr

/-- A `nix::DrvOutput`: derivation hash and output name. -/
structure DrvOutput where
  drvHash : Hash
  outputName : String
deriving DecidableEq, Repr

/-- A `nix::Realisation`. -/
structure Realisation where
  id : DrvOutput
  outPath : StorePath
deriving DecidableEq, Repr

/-- A `nix::SecretKey`. -/
structure SecretKey where
  name : String
  key : List Nat
deriving DecidableEq, Repr

/-- What `nix::dumpPath(path, sink)` does: the pieces it hands to the sink, in
order, and the `nix::Error` it throws afterwards, if any. -/
structure Dump where
  chunks : List String
  error : Option String
deriving DecidableEq, Repr

/-- The nix library as the server uses it: the global setting
`nix::settings.nixStore`, the methods of the opened `nix::Store`, and the
library functions on hashes, derivation outputs, keys and archives. -/
structure Nix where
  /-- The setting `nix::settings.nixStore`. -/
  nixStore : String
  /-- The method `Store::queryPathFromHashPart`. -/
  queryPathFromHashPart : String → Except String (Option StorePath)
  /-- The method `Store::queryPathInfo`. -/
  queryPathInfo : StorePath → Except String ValidPathInfo
  /-- The method `Store::printStorePath`. -/
  printStorePath : StorePath → String
  /-- The method `Store::queryRealisation`. -/
  queryRealisation : DrvOutput → Except String (Option Realisation)
  /-- The call `Hash::to_string(nix::Base32, false)`. -/
  to_string : Hash → String
  /-- The call `Hash::parseAny(s, nix::htSHA256)`. -/
  parseAny : String → Except String Hash
  /-- The function `DrvOutput::parse`. -/
  parse : String → Except String DrvOutput
  /-- The call `info->fingerprint(*store)`. -/
  fingerprint : ValidPathInfo → Except String String
  /-- The method `SecretKey::signDetached`. -/
  signDetached : SecretKey → String → String
  /-- The call `realisation->toJSON().dump()`. -/
  toJSON_dump : Realisation → String
  /-- The function `nix::dumpPath`, by the printed path it is given. -/
  dumpPath : String → Dump

deriving instance DecidableEq for Except

/-! ## Requests and responses of the HTTP library -/

/-- A `httplib::Request`: the path and the member `matches`, here `smatch`
(index 0 is the whole match, the captures follow). -/
structure Request where
  path : String
  smatch : List String
deriving DecidableEq, Repr

/-- A `httplib::Response`.  `status` starts at `-1`; `content_provider` holds
the store path captured by the chunked provider's closure, when one is set. -/
structure Response where
  status : Int
  body : String
  content_type : Option String
  content_provider : Option StorePath
deriving DecidableEq, Repr

/-- The method `Response::set_content(s, content_type)`. -/
def Response.set_content (res : Response) (s : String) (content_type : String) : Response :=
  { res with body := s, content_type := some content_type }

/-- The method `Response::set_chunked_content_provider(content_type, provider)`,
the provider being the closure over `storePath`. -/
def Response.set_chunked_content_provider (res : Response) (content_type : String)
    (storePath : StorePath) : Response :=
  { res with content_type := some content_type, content_provider := some storePath }

/-- A sub-match `req.matches[i]`; an index past the end is the empty match. -/
def Request.sub (req : Request) (i : Nat) : String :=
  req.smatch.getD i ""

/-- How a route operation ends: it returns, or an exception with text `what`
escapes it; `res` is the response object as the operation left it. -/
inductive Outcome where
  | returned (res : Response)
  | threw (res : Response) (what : String)
deriving DecidableEq, Repr

/-! ## `server.cpp` -/

/-- The function `stripTrailingSlash`: one trailing `/` is popped. -/
def stripTrailingSlash (s : String) : String :=
  if s.data ≠ [] ∧ s.data.getLast? = some '/' then ⟨s.data.dropLast⟩ else s

/-- The function `notFound`. -/
def notFound (res : Response) (msg : String) : Response :=
  { res with status := 404 }.set_content msg "text/plain"

/-- The class `Server`: the opened store and the optional signing key. -/
structure Server where
  host : String
  port : Nat
  store : Nix
  secretKey : Option SecretKey

/-- The call `snprintf(buf, size, "<pre>%s", arg)` read back as a C string: at
most `size - 1` characters of the formatted text are kept. -/
def snprintf (size : Nat) (pre arg : String) : String :=
  ⟨(pre.data ++ arg.data).take (size - 1)⟩

/-- The method `Server::handleException`; `BUFSIZ` is the constant of
`<stdio.h>` and `what` the C string `e.what()`. -/
def handleException (BUFSIZ : Nat) (_req : Request) (res : Response) (what : String) :
    Response :=
  { res with status := 500 }.set_content (snprintf BUFSIZ "Error 500\n" what) "text/plain"

/-- The method `Server::getNixCacheInfo`. -/
def getNixCacheInfo (srv : Server) (_req : Request) (res : Response) : Outcome :=
  let resp := "StoreDir: " ++ srv.store.nixStore ++ "\nWantMassQuery: 1\nPriority: 30\n"
  .returned (res.set_content resp "text/plain")

/-- The loop `for (auto &i : info->references) resp += " " + stripTrailingSlash(...)`. -/
def appendReferences (nix : Nix) (resp : String) (references : List StorePath) : String :=
  references.foldl (fun resp i => resp ++ (" " ++ stripTrailingSlash (nix.printStorePath i))) resp

/-- The method `Server::getNarInfo`. -/
def getNarInfo (srv : Server) (req : Request) (res : Response) : Outcome :=
  let hashPart := req.sub 1
  match srv.store.queryPathFromHashPart hashPart with
  | .error e => .threw res e
  | .ok none => .returned (notFound res "No such path.\n")
  | .ok (some storePath) =>
    match srv.store.queryPathInfo storePath with
    | .error e => .threw res e
    | .ok info =>
      let narHash := srv.store.to_string info.narHash
      let resp := "StorePath: " ++ srv.store.printStorePath storePath ++ "\n" ++
        "URL: nar/" ++ hashPart ++ "-" ++ narHash ++ ".nar\n" ++
        "Compression: none\n" ++ "NarHash: " ++ narHash ++ "\n" ++
        "NarSize: " ++ toString info.narSize ++ "\n"
      let resp :=
        if !info.references.isEmpty then
          appendReferences srv.store (resp ++ "References:") info.references ++ "\n"
        else resp
      let resp :=
        match info.deriver with
        | some deriver =>
          resp ++ ("Deriver: " ++ stripTrailingSlash (srv.store.printStorePath deriver) ++ "\n")
        | none => resp
      match srv.secretKey with
      | some secretKey =>
        match srv.store.fingerprint info with
        | .error e => .threw res e
        | .ok fp =>
          .returned (res.set_content
            (resp ++ ("Sig: " ++ srv.store.signDetached secretKey fp ++ "\n")) "text/plain")
      | none => .returned (res.set_content resp "text/plain")

/-- The method `Server::getNar`. -/
def getNar (srv : Server) (req : Request) (res : Response) : Outcome :=
  let hashPart := req.sub 1
  match srv.store.parseAny (req.sub 2) with
  | .error e => .threw res e
  | .ok expectedNarHash =>
    match srv.store.queryPathFromHashPart hashPart with
    | .error e => .threw res e
    | .ok none => .returned (notFound res "No such path.\n")
    | .ok (some storePath) =>
      match srv.store.queryPathInfo storePath with
      | .error e => .threw res e
      | .ok info =>
        if info.narHash ≠ expectedNarHash then
          .returned (notFound res "Incorrect NAR hash. Maybe the path has been recreated.\n")
        else
          .returned (res.set_chunked_content_provider "text/plain" storePath)

/-- The method `Server::getNarDeprecated`. -/
def getNarDeprecated (srv : Server) (req : Request) (res : Response) : Outcome :=
  let hashPart := req.sub 1
  match srv.store.queryPathFromHashPart hashPart with
  | .error e => .threw res e
  | .ok none => .returned (notFound res "No such path.\n")
  | .ok (some storePath) =>
    match srv.store.queryPathInfo storePath with
    | .error e => .threw res e
    | .ok _info => .returned (res.set_chunked_content_provider "text/plain" storePath)

/-- The method `Server::getRealisation`. -/
def getRealisation (srv : Server) (req : Request) (res : Response) : Outcome :=
  let outputId := req.sub 1
  match srv.store.parse outputId with
  | .error e => .threw res e
  | .ok drvOutput =>
    match srv.store.queryRealisation drvOutput with
    | .error e => .threw res e
    | .ok none => .returned (notFound res "No such derivation output.\n")
    | .ok (some realisation) =>
      .returned (res.set_content (srv.store.toJSON_dump realisation) "application/json")

/-- What a `httplib::DataSink` has seen: the bytes written and whether `done`
was called. -/
structure DataSink where
  written : String
  isDone : Bool
deriving DecidableEq, Repr

/-- The chunked content provider installed by `getNar` and `getNarDeprecated`:
the closure `[this, storePath](size_t offset, httplib::DataSink &sink)`.  Every
piece `dumpPath` produces goes through `HttpSink` to `sink.write`; a
`nix::Error` is logged and answered with `done` and `false`. -/
def contentProvider (srv : Server) (storePath : StorePath) (sink : DataSink) :
    Bool × DataSink :=
  let dump := srv.store.dumpPath (srv.store.printStorePath storePath)
  let sink := dump.chunks.foldl (fun s data => { s with written := s.written ++ data }) sink
  match dump.error with
  | some _ => (false, { sink with isDone := true })
  | none => (true, { sink with isDone := true })

/-! ## Route patterns

The patterns of `Server::listen` are sequences of literal text and capture
groups that repeat one atom; `std::regex_match` must consume the whole path,
so the anchors `^` and `$` add nothing. -/

/-- The atoms repeated inside the capture groups: the class `[0-9a-z]`, and
`.`, which in the ECMAScript grammar of `std::regex` matches every character
but the line terminators. -/
inductive Atom where
  | range09az
  | dot
deriving DecidableEq, Repr

/-- Whether a character is matched by an atom. -/
def Atom.test : Atom → Char → Bool
  | .range09az, c => (decide ('0' ≤ c) && decide (c ≤ '9')) || (decide ('a' ≤ c) && decide (c ≤ 'z'))
  | .dot, c => c != '\n' && c != '\r'

/-- A piece of a pattern: literal text (escapes resolved), or a capture group
`(a+)` (`atLeast = 1`) or `(a*)` (`atLeast = 0`). -/
inductive Tok where
  | lit (s : String)
  | group (a : Atom) (atLeast : Nat)
deriving DecidableEq, Repr

/-- Consume the literal `l` at the head of the input. -/
def stripLit : List Char → List Char → Option (List Char)
  | [], s => some s
  | _ :: _, [] => none
  | c :: l, d :: s => if c = d then stripLit l s else none

/-- A greedy repetition with backtracking: having captured `acc`, first try to
take one more character, and only when that fails stop here and run the rest
of the pattern `k` on the remaining input. -/
def greedy (ok : Char → Bool) (atLeast : Nat) (k : List Char → Option (List (List Char))) :
    List Char → List Char → Option (List (List Char))
  | acc, [] => if atLeast ≤ acc.length then (k []).map (acc :: ·) else none
  | acc, c :: s =>
    match (if ok c then greedy ok atLeast k (acc ++ [c]) s else none) with
    | some r => some r
    | none => if atLeast ≤ acc.length then (k (c :: s)).map (acc :: ·) else none

/-- Match a whole input against a pattern; the result lists the captures. -/
def matchToks : List Tok → List Char → Option (List (List Char))
  | [], s => if s = [] then some [] else none
  | .lit l :: ts, s =>
    match stripLit l.data s with
    | some r => matchToks ts r
    | none => none
  | .group a n :: ts, s => greedy a.test n (matchToks ts) [] s

/-- The call `std::regex_match(path, matches, pattern)`: on success `matches`
is the whole path followed by the captures. -/
def regex_match (pattern : List Tok) (path : String) : Option (List String) :=
  (matchToks pattern path.data).map fun caps => path :: caps.map String.mk

/-- The route operations of `Server`. -/
inductive Operation where
  | getNixCacheInfo
  | getNarInfo
  | getNar
  | getNarDeprecated
  | getRealisation
deriving DecidableEq, Repr

/-- The pattern `/nix-cache-info`. -/
def patCacheInfo : List Tok := [.lit "/nix-cache-info"]

/-- The pattern `^/([0-9a-z]+)\.narinfo$`. -/
def patNarInfo : List Tok := [.lit "/", .group .range09az 1, .lit ".narinfo"]

/-- The pattern `^/nar/([0-9a-z]+)-([0-9a-z]+)\.nar$`. -/
def patNar : List Tok :=
  [.lit "/nar/", .group .range09az 1, .lit "-", .group .range09az 1, .lit ".nar"]

/-- The pattern `^/nar/([0-9a-z]+)\.nar$`. -/
def patNarDeprecated : List Tok := [.lit "/nar/", .group .range09az 1, .lit ".nar"]

/-- The pattern `^/realisations/(.*)\.doi$`. -/
def patRealisation : List Tok := [.lit "/realisations/", .group .dot 0, .lit ".doi"]

/-- The `GET` handlers registered by `Server::listen`, in registration order. -/
def routes : List (List Tok × Operation) :=
  [ (patCacheInfo, .getNixCacheInfo),
    (patNarInfo, .getNarInfo),
    (patNar, .getNar),
    (patNarDeprecated, .getNarDeprecated),
    (patRealisation, .getRealisation) ]

/-- The handler lookup of the HTTP library for a `GET` request: the handlers
are tried in registration order and the first whose pattern matches the whole
path is taken, the request receiving its `matches`. -/
def lookup (table : List (List Tok × Operation)) (path : String) :
    Option (Operation × Request) :=
  table.findSome? fun entry =>
    (regex_match entry.1 path).map fun ms => (entry.2, { path := path, smatch := ms })

/-- The handler lookup over the table of `Server::listen`. -/
def routing (path : String) : Option (Operation × Request) :=
  lookup routes path

/-- The `GET` handlers registered by `serve` in `nix-serve.cpp`, in registration
order: there the realisations pattern precedes the deprecated nar pattern. -/
def serveRoutes : List (List Tok × Operation) :=
  [ (patCacheInfo, .getNixCacheInfo),
    (patNarInfo, .getNarInfo),
    (patNar, .getNar),
    (patRealisation, .getRealisation),
    (patNarDeprecated, .getNarDeprecated) ]

/-- The body of the handler registered for an operation. -/
def Server.call (srv : Server) : Operation → Request → Response → Outcome
  | .getNixCacheInfo => getNixCacheInfo srv
  | .getNarInfo => getNarInfo srv
  | .getNar => getNar srv
  | .getNarDeprecated => getNarDeprecated srv
  | .getRealisation => getRealisation srv

/-- The response object a request starts with. -/
def Response.fresh : Response :=
  { status := -1, body := "", content_type := none, content_provider := none }

/-- The HTTP library serving one `GET` request: an unrouted path is answered
404; an exception escaping the handler goes to the exception handler set in
`Server::listen`, which is `handleException`; a status still unset after a
routed request becomes 200. -/
def process_request (srv : Server) (BUFSIZ : Nat) (path : String) : Response :=
  match routing path with
  | none => { Response.fresh with status := 404 }
  | some (op, req) =>
    let res :=
      match srv.call op req Response.fresh with
      | .returned res => res
      | .threw res what => handleException BUFSIZ req res what
    if res.status = -1 then { res with status := 200 } else res

/-! ## `main.cpp`: the `--listen` flag

The handler of `--listen` in `src/main.cpp`; `nix-serve.cpp` has the same
handler but for the lower bound on the port. -/

/-- What the `--listen` handler can throw: a `nix::UsageError` with its message,
or one of the two exceptions of the standard library.  `out_of_bounds` stands
for a read of `s[i]` outside the string, which has no defined result. -/
inductive ListenError where
  | UsageError (msg : String)
  | invalid_argument
  | out_of_range
  | out_of_bounds
deriving DecidableEq, Repr

/-- The members of `MyArgs` the handler assigns; `port` is a `uint16_t`. -/
structure MyArgs where
  port : Nat
  host : String
deriving DecidableEq, Repr

/-- The two copies of the handler: `src/main.cpp` refuses a port `p < 0`,
`nix-serve.cpp` a port `p <= 0`. -/
inductive Variant where
  | main_cpp
  | nix_serve_cpp
deriving DecidableEq, Repr

/-- The lower bound test on the port: `p < 0` in `src/main.cpp`, `p <= 0` in
`nix-serve.cpp`. -/
def Variant.belowRange : Variant → Int → Bool
  | .main_cpp, p => decide (p < 0)
  | .nix_serve_cpp, p => decide (p ≤ 0)

/-- The call `s.rfind(c)`: the index of the last occurrence, `none` for `npos`. -/
def rfind : List Char → Char → Option Nat
  | [], _ => none
  | d :: s, c =>
    match rfind s c with
    | some i => some (i + 1)
    | none => if d = c then some 0 else none

/-- The call `s.substr(pos, count)`: `std::out_of_range` when `pos` is past the
end, else at most `count` characters from `pos` on. -/
def substr (s : String) (pos count : Nat) : Except ListenError String :=
  if pos > s.length then .error .out_of_range else .ok ⟨(s.data.drop pos).take count⟩

/-- The call `s.substr(pos)`, whose count defaults to `npos`: from `pos` to the
end. -/
def substrFrom (s : String) (pos : Nat) : Except ListenError String :=
  if pos > s.length then .error .out_of_range else .ok ⟨s.data.drop pos⟩

/-- The function `isspace` in the C locale. -/
def isspace (c : Char) : Bool :=
  c = ' ' || c = '\t' || c = '\n' || c = '\x0b' || c = '\x0c' || c = '\r'

/-- The function `isdigit`. -/
def isdigit (c : Char) : Bool :=
  decide (48 ≤ c.toNat) && decide (c.toNat ≤ 57)

/-- The value of a run of decimal digits. -/
def digitsValue (ds : List Char) : Nat :=
  ds.foldl (fun a c => 10 * a + (c.toNat - 48)) 0

/-- The call `std::stoi(str)`: leading white space is skipped, a sign is
accepted, the longest run of digits is converted and what follows is ignored;
`std::invalid_argument` without a digit, `std::out_of_range` when the value
does not fit an `int`. -/
def stoi (str : String) : Except ListenError Int :=
  let t := str.data.dropWhile isspace
  let negative := t.head? = some '-'
  let t := if t.head? = some '-' ∨ t.head? = some '+' then t.tail else t
  let ds := t.takeWhile isdigit
  if ds = [] then .error .invalid_argument
  else
    let v : Int := if negative then -(digitsValue ds : Int) else (digitsValue ds : Int)
    if v < -2147483648 ∨ v > 2147483647 then .error .out_of_range else .ok v

/-- The handler of the flag `--listen`, applied to the argument `s`. -/
def MyArgs.listen (variant : Variant) (args : MyArgs) (s : String) : Except ListenError MyArgs :=
  match rfind s.data ':' with
  | none => .error (.UsageError "Invalid listen address. Expected: host:port")
  | some portStart =>
    match substrFrom s (portStart + 1) with
    | .error e => .error e
    | .ok portStr =>
      match stoi portStr with
      | .error e => .error e
      | .ok p =>
        if p > 65535 ∨ variant.belowRange p = true then
          .error (.UsageError "Invalid port number")
        else
          let args := { args with port := p.toNat % 2 ^ 16 }
          let start := if s.data.getD 0 '\x00' = '[' then 1 else 0
          if portStart = 0 then .error .out_of_bounds
          else
            let end_ :=
              if s.data.getD (portStart - 1) '\x00' = ']' then (portStart + 2 ^ 64 - 2) % 2 ^ 64
              else portStart - 1
            match substr s start end_ with
            | .error e => .error e
            | .ok host => .ok { args with host := host }

/-- The members of `MyArgs` as initialised: port 5000, host `::`. -/
def MyArgs.initial : MyArgs :=
  { port := 5000, host := "::" }

/-! ## Notions used to state the properties -/

/-- The response object an operation leaves behind. -/
def Outcome.res : Outcome → Response
  | .returned res => res
  | .threw res _ => res

/-- The text made of the given lines, each terminated by a newline. -/
def unlines : List String → String
  | [] => ""
  | l :: ls => l ++ "\n" ++ unlines ls

/-- The items read by the loop `while (std::getline(ss, item, '\n'))` of the
test's `parseInfo`, `item` being the characters read since the last newline. -/
def getlinesFrom : List Char → List Char → List String
  | item, [] => if item = [] then [] else [⟨item⟩]
  | item, c :: s =>
    if c = '\n' then ⟨item⟩ :: getlinesFrom [] s else getlinesFrom (item ++ [c]) s

/-- The lines of a text, as `std::getline` reads them. -/
def getlines (s : String) : List String :=
  getlinesFrom [] s.data

/-- The narinfo document in the words of the specification: the fields in
their fixed order, the optional ones present when they have a value. -/
def narInfoLines (storePath url narHash : String) (narSize : Nat) (references : List String)
    (deriver sig : Option String) : List String :=
  [ "StorePath: " ++ storePath, "URL: " ++ url, "Compression: none",
    "NarHash: " ++ narHash, "NarSize: " ++ toString narSize ] ++
  (if references = [] then [] else ["References: " ++ " ".intercalate references]) ++
  (match deriver with
    | some d => ["Deriver: " ++ d]
    | none => []) ++
  (match sig with
    | some s => ["Sig: " ++ s]
    | none => [])

/-- The lines of the document for a resolved path: the values are what the
store prints, the references and the deriver through `stripTrailingSlash`. -/
def docLines (srv : Server) (hashPart : String) (storePath : StorePath) (info : ValidPathInfo)
    (sig : Option String) : List String :=
  narInfoLines (srv.store.printStorePath storePath)
    ("nar/" ++ hashPart ++ "-" ++ srv.store.to_string info.narHash ++ ".nar")
    (srv.store.to_string info.narHash) info.narSize
    (info.references.map fun i => stripTrailingSlash (srv.store.printStorePath i))
    (info.deriver.map fun d => stripTrailingSlash (srv.store.printStorePath d)) sig

/-- The text `getNarInfo` has built when it reaches the signature step. -/
def unsignedText (srv : Server) (hashPart : String) (storePath : StorePath)
    (info : ValidPathInfo) : String :=
  let narHash := srv.store.to_string info.narHash
  let resp := "StorePath: " ++ srv.store.printStorePath storePath ++ "\n" ++
    "URL: nar/" ++ hashPart ++ "-" ++ narHash ++ ".nar\n" ++
    "Compression: none\n" ++ "NarHash: " ++ narHash ++ "\n" ++
    "NarSize: " ++ toString info.narSize ++ "\n"
  let resp :=
    if !info.references.isEmpty then
      appendReferences srv.store (resp ++ "References:") info.references ++ "\n"
    else resp
  match info.deriver with
  | some deriver =>
    resp ++ ("Deriver: " ++ stripTrailingSlash (srv.store.printStorePath deriver) ++ "\n")
  | none => resp

/-- One or more characters of `[0-9a-z]`. -/
def isHashPart (s : String) : Prop :=
  s.data ≠ [] ∧ ∀ c ∈ s.data, ('0' ≤ c ∧ c ≤ '9') ∨ ('a' ≤ c ∧ c ≤ 'z')

instance (s : String) : Decidable (isHashPart s) := by
  unfold isHashPart; infer_instance

/-- No line terminator (`\n`, `\r`) among the characters. -/
def noLineTerminator (s : String) : Prop :=
  ∀ c ∈ s.data, c ≠ '\n' ∧ c ≠ '\r'

instance (s : String) : Decidable (noLineTerminator s) := by
  unfold noLineTerminator; infer_instance

/-- The request the route table hands to an operation: the path and its
`matches`. -/
def routed (path : String) (captures : List String) : Request :=
  { path := path, smatch := path :: captures }

/-- A decimal number: one or more of the digits `0` to `9`. -/
def isDecimal (p : String) : Prop :=
  p.data ≠ [] ∧ ∀ c ∈ p.data, '0' ≤ c ∧ c ≤ '9'

instance (p : String) : Decidable (isDecimal p) := by
  unfold isDecimal; infer_instance

/-- The number a decimal string denotes. -/
def decimalValue (p : String) : Nat :=
  digitsValue p.data

/-! ## `test_server.cpp`: reading a document back -/

/-- The call `item.find(pat)`: the index of the first occurrence of `pat`,
`none` for `npos`. -/
def find (pat : List Char) : List Char → Option Nat
  | [] => if pat = [] then some 0 else none
  | c :: s => if pat.isPrefixOf (c :: s) then some 0 else (find pat s).map (· + 1)

/-- The loop of the test's `parseInfo` over the items `std::getline` reads:
an item without `: ` throws, otherwise `result[key] = value` with the key
before the first `: ` and the value after it; `size` is `s.size()`.  The map
is the list of its assignments, the latest first. -/
def parseItems (size : Nat) :
    List String → List (String × String) → Except String (List (String × String))
  | [], result => .ok result
  | item :: items, result =>
    match find ": ".data item.data with
    | none => .error ("invalid line in output: " ++ item)
    | some end_ =>
      parseItems size items
        ((⟨item.data.take end_⟩, ⟨(item.data.drop (end_ + 2)).take (size - end_)⟩) :: result)

/-- The function `parseInfo` of the test. -/
def parseInfo (s : String) : Except String (List (String × String)) :=
  parseItems s.length (getlines s) []

/-- The read `info[key]` of the parsed map: the latest assignment to `key`,
the empty string when there is none. -/
def field (info : List (String × String)) (key : String) : String :=
  (info.lookup key).getD ""

/-- The fields of the narinfo document as keys and values, in document order. -/
def narInfoFields (storePath url narHash : String) (narSize : Nat) (references : List String)
    (deriver sig : Option String) : List (String × String) :=
  [ ("StorePath", storePath), ("URL", url), ("Compression", "none"),
    ("NarHash", narHash), ("NarSize", toString narSize) ] ++
  (if references = [] then [] else [("References", " ".intercalate references)]) ++
  (match deriver with
    | some d => [("Deriver", d)]
    | none => []) ++
  (match sig with
    | some s => [("Sig", s)]
    | none => [])

/-! ## An example store -/

/-- The base-32 alphabet of nix. -/
def base32Chars : String := "0123456789abcdfghijklmnpqrsvwxyz"

/-- A 52-digit base-32 value, the size of a SHA-256 digest. -/
def exHash (seed : Nat) : Hash :=
  ⟨(List.range 52).map fun i => (seed + 7 * i) % 32⟩

/-- An example path without references or deriver. -/
def exHello : StorePath := ⟨"abc123-hello"⟩

/-- An example path with two references and a deriver. -/
def exWorld : StorePath := ⟨"def456-world"⟩

/-- The deriver of `exWorld`. -/
def exDrv : StorePath := ⟨"ghi789-world.drv"⟩

/-- The metadata of `exHello`. -/
def exHelloInfo : ValidPathInfo :=
  { path := exHello, narHash := exHash 1, narSize := 128, references := [], deriver := none }

/-- The metadata of `exWorld`. -/
def exWorldInfo : ValidPathInfo :=
  { path := exWorld, narHash := exHash 2, narSize := 4096, references := [exHello, exWorld],
    deriver := some exDrv }

/-- An example store with two paths.  Hashes print as 52 base-32 digits and
parse back from that form only; a derivation output id needs its `!`. -/
def exNix : Nix where
  nixStore := "/nix/store"
  queryPathFromHashPart h :=
    if h = "abc123" then .ok (some exHello)
    else if h = "def456" then .ok (some exWorld)
    else .ok none
  queryPathInfo p :=
    if p = exHello then .ok exHelloInfo
    else if p = exWorld then .ok exWorldInfo
    else .error "path is not valid"
  printStorePath p := "/nix/store/" ++ p.baseName
  queryRealisation _ := .ok none
  to_string h := ⟨h.bytes.map fun b => base32Chars.data.getD b '0'⟩
  parseAny s :=
    if s.length = 52 ∧ ∀ c ∈ s.data, c ∈ base32Chars.data then
      .ok ⟨s.data.map fun c => base32Chars.data.indexOf c⟩
    else .error ("hash '" ++ s ++ "' has wrong length for hash type 'sha256'")
  parse s :=
    if '!' ∈ s.data then
      .ok { drvHash := ⟨(s.data.takeWhile (· != '!')).map Char.toNat⟩,
            outputName := ⟨(s.data.dropWhile (· != '!')).drop 1⟩ }
    else .error ("Invalid derivation output id " ++ s)
  fingerprint info :=
    if info.narSize = 0 then .error "cannot calculate fingerprint: size is not known"
    else .ok ("1;/nix/store/" ++ info.path.baseName ++ ";" ++ toString info.narSize)
  signDetached key fp := key.name ++ ":" ++ ⟨fp.data.reverse⟩
  toJSON_dump r := "\x7b\"outPath\":\"" ++ r.outPath.baseName ++ "\"\x7d"
  dumpPath p := { chunks := ["nix-archive-1", p], error := none }

/-- A server over the example store, without signing key. -/
def exServer : Server := { host := "::1", port := 5000, store := exNix, secretKey := none }

/-- An example signing key. -/
def exKey : SecretKey := { name := "cache.example.org-1", key := [1, 2, 3] }

/-- A server over the example store, with a signing key. -/
def exSigningServer : Server := { exServer with secretKey := some exKey }

/-- A digest function for the example: the recorded hash of `exHello` for its
serialization. -/
def exHashOf (content : String) : Hash :=
  if content = "nix-archive-1/nix/store/abc123-hello" then exHash 1 else ⟨[]⟩

/-! ## Lines and the narinfo text -/

theorem getlinesFrom_line (l : List Char) (hl : '\n' ∉ l) (item rest : List Char) :
    getlinesFrom item (l ++ '\n' :: rest) = ⟨item ++ l⟩ :: getlinesFrom [] rest := by
  induction l generalizing item with
  | nil => simp [getlinesFrom]
  | cons c l ih =>
    have hc : c ≠ '\n' := fun h => hl (by simp [h])
    have hl2 : '\n' ∉ l := fun h => hl (by simp [h])
    simp [getlinesFrom, hc, ih hl2]

theorem getlines_unlines (ls : List String) (h : ∀ l ∈ ls, '\n' ∉ l.data) :
    getlines (unlines ls) = ls := by
  induction ls with
  | nil => simp [getlines, unlines, getlinesFrom]
  | cons l ls ih =>
    have h1 : '\n' ∉ l.data := h l (by simp)
    have h2 : ∀ l ∈ ls, '\n' ∉ l.data := fun x hx => h x (by simp [hx])
    have := getlinesFrom_line l.data h1 [] (unlines ls).data
    simp only [getlines] at ih
    simp [getlines, unlines, String.data_append, this, ih h2]

theorem unlines_append (xs ys : List String) : unlines (xs ++ ys) = unlines xs ++ unlines ys := by
  induction xs with
  | nil => simp [unlines]
  | cons x xs ih => simp [unlines, ih, String.append_assoc]

theorem intercalate_go_append (p a s : String) (l : List String) :
    String.intercalate.go (p ++ a) s l = p ++ String.intercalate.go a s l := by
  induction l generalizing a with
  | nil => simp [String.intercalate.go]
  | cons b l ih =>
    simp only [String.intercalate.go]
    rw [String.append_assoc p a s, String.append_assoc p (a ++ s) b, ih]

theorem foldl_eq_intercalate_go (f : StorePath → String) (acc : String) (l : List StorePath) :
    l.foldl (fun resp i => resp ++ (" " ++ f i)) acc = String.intercalate.go acc " " (l.map f) := by
  induction l generalizing acc with
  | nil => simp [String.intercalate.go]
  | cons a l ih =>
    simp only [List.foldl_cons, List.map_cons, String.intercalate.go]
    rw [ih, String.append_assoc]

theorem appendReferences_eq (nix : Nix) (x : String) (refs : List StorePath) (h : refs ≠ []) :
    appendReferences nix (x ++ "References:") refs =
      x ++ ("References: " ++
        " ".intercalate (refs.map fun i => stripTrailingSlash (nix.printStorePath i))) := by
  cases refs with
  | nil => exact absurd rfl h
  | cons a t =>
    simp only [appendReferences, List.foldl_cons, List.map_cons, String.intercalate]
    rw [foldl_eq_intercalate_go]
    have e : x ++ "References:" ++ (" " ++ stripTrailingSlash (nix.printStorePath a)) =
        (x ++ "References: ") ++ stripTrailingSlash (nix.printStorePath a) := by
      apply String.ext; simp [String.data_append]
    rw [e, intercalate_go_append, String.append_assoc]

theorem header_eq (p h n sz : String) :
    "StorePath: " ++ p ++ "\n" ++ "URL: nar/" ++ h ++ "-" ++ n ++ ".nar\n" ++
        "Compression: none\n" ++ "NarHash: " ++ n ++ "\n" ++ "NarSize: " ++ sz ++ "\n" =
      unlines [ "StorePath: " ++ p, "URL: " ++ ("nar/" ++ h ++ "-" ++ n ++ ".nar"),
        "Compression: none", "NarHash: " ++ n, "NarSize: " ++ sz ] := by
  apply String.ext; simp [unlines, String.data_append]

theorem unlines_singleton_append (x a : String) : x ++ (a ++ "\n") = x ++ unlines [a] := by
  simp [unlines]

theorem docLines_some (srv : Server) (h : String) (p : StorePath) (info : ValidPathInfo)
    (sig : String) :
    docLines srv h p info (some sig) = docLines srv h p info none ++ ["Sig: " ++ sig] := by
  simp [docLines, narInfoLines]

theorem unsignedText_eq (srv : Server) (h : String) (p : StorePath) (info : ValidPathInfo) :
    unsignedText srv h p info = unlines (docLines srv h p info none) := by
  unfold unsignedText
  simp only []
  rw [header_eq]
  by_cases hr : info.references = []
  · cases hd : info.deriver
    · simp [docLines, narInfoLines, hr, hd]
    · simp only [hr, List.isEmpty_nil, Bool.not_true, Bool.false_eq_true, if_false]
      rw [unlines_singleton_append, ← unlines_append]
      simp [docLines, narInfoLines, hr, hd]
  · have hne : (!info.references.isEmpty) = true := by
      cases hx : info.references with
      | nil => exact absurd hx hr
      | cons a t => rfl
    rw [if_pos hne, appendReferences_eq _ _ _ hr, String.append_assoc, unlines_singleton_append,
      ← unlines_append]
    cases hd : info.deriver
    · simp [docLines, narInfoLines, hr, hd]
    · simp only []
      rw [unlines_singleton_append, ← unlines_append]
      simp [docLines, narInfoLines, hr, hd]

theorem getNarInfo_outcome (srv : Server) (req : Request) (res : Response)
    (storePath : StorePath) (info : ValidPathInfo)
    (hp : srv.store.queryPathFromHashPart (req.sub 1) = .ok (some storePath))
    (hi : srv.store.queryPathInfo storePath = .ok info) :
    getNarInfo srv req res =
      match srv.secretKey with
      | none => .returned (res.set_content
          (unlines (docLines srv (req.sub 1) storePath info none)) "text/plain")
      | some key =>
        match srv.store.fingerprint info with
        | .error e => .threw res e
        | .ok fp => .returned (res.set_content
            (unlines (docLines srv (req.sub 1) storePath info
              (some (srv.store.signDetached key fp)))) "text/plain") := by
  have hu := unsignedText_eq srv (req.sub 1) storePath info
  unfold unsignedText at hu
  unfold getNarInfo
  simp only [hp, hi] at hu ⊢
  cases hk : srv.secretKey with
  | none => simp only []; rw [hu]
  | some key =>
    simp only []
    cases hf : srv.store.fingerprint info with
    | error e => rfl
    | ok fp =>
      simp only []
      rw [hu, docLines_some, unlines_append, unlines_singleton_append]

theorem snprintf_length (size : Nat) (pre arg : String) :
    (snprintf size pre arg).length = min (size - 1) (pre.length + arg.length) := by
  simp only [snprintf, String.length_mk, List.length_take, List.length_append,
    String.length_data]

theorem snprintf_eq_iff (size : Nat) (pre arg : String) (hpre : 0 < pre.length) :
    snprintf size pre arg = pre ++ arg ↔ pre.length + arg.length < size := by
  constructor
  · intro h
    have h2 := congrArg String.length h
    rw [snprintf_length, String.length_append] at h2
    omega
  · intro h
    apply String.ext
    simp only [snprintf, String.data_append]
    apply List.take_of_length_le
    rw [List.length_append, String.length_data, String.length_data]
    omega

/-! ## Matching route patterns -/

theorem stripLit_eq_some (l s r : List Char) : stripLit l s = some r ↔ s = l ++ r := by
  induction l generalizing s with
  | nil => simp [stripLit, eq_comm]
  | cons c l ih =>
    cases s with
    | nil => simp [stripLit]
    | cons d s =>
      by_cases h : c = d
      · simp [stripLit, h, ih]
      · simp [stripLit, h]
        intro h2; exact absurd h2.symm h

theorem greedy_sound (ok : Char → Bool) (n : Nat) (k : List Char → Option (List (List Char)))
    (s acc : List Char) (caps : List (List Char)) (h : greedy ok n k acc s = some caps) :
    ∃ pre rest r, s = pre ++ rest ∧ (∀ c ∈ pre, ok c = true) ∧ n ≤ (acc ++ pre).length ∧
      k rest = some r ∧ caps = (acc ++ pre) :: r := by
  induction s generalizing acc with
  | nil =>
    simp only [greedy] at h
    split at h
    · rename_i hn
      cases hk : k [] with
      | none => simp [hk] at h
      | some r =>
        simp [hk] at h
        exact ⟨[], [], r, rfl, by simp, by simpa using hn, hk, by simp [h]⟩
    · cases h
  | cons c s ih =>
    simp only [greedy] at h
    split at h
    · rename_i r hr
      injection h with h
      subst h
      by_cases hc : ok c = true
      · simp only [hc, if_true] at hr
        obtain ⟨pre, rest, r', hs, hall, hn, hk, hcaps⟩ := ih (acc ++ [c]) hr
        refine ⟨c :: pre, rest, r', by simp [hs], ?_, by simpa using hn, hk, ?_⟩
        · intro x hx
          rcases List.mem_cons.mp hx with rfl | hx
          · exact hc
          · exact hall x hx
        · simpa using hcaps
      · simp [hc] at hr
    · split at h
      · rename_i hn
        cases hk : k (c :: s) with
        | none => simp [hk] at h
        | some r =>
          simp [hk] at h
          exact ⟨[], c :: s, r, rfl, by simp, by simpa using hn, hk, by simp [h]⟩
      · cases h

theorem greedy_complete (ok : Char → Bool) (n : Nat) (k : List Char → Option (List (List Char)))
    (pre rest acc : List Char) (r : List (List Char))
    (hall : ∀ c ∈ pre, ok c = true) (hn : n ≤ (acc ++ pre).length) (hk : k rest = some r)
    (huniq : ∀ pre' rest', pre' ++ rest' = pre ++ rest → (∀ c ∈ pre', ok c = true) →
      k rest' ≠ none → pre'.length ≤ pre.length) :
    greedy ok n k acc (pre ++ rest) = some ((acc ++ pre) :: r) := by
  induction pre generalizing acc with
  | nil =>
    simp only [List.nil_append, List.append_nil] at hn ⊢
    cases rest with
    | nil => simp [greedy, hn, hk]
    | cons c s =>
      have hnone : (if ok c = true then greedy ok n k (acc ++ [c]) s else none) = none := by
        by_cases hc : ok c = true
        · simp only [hc, if_true]
          cases hg : greedy ok n k (acc ++ [c]) s with
          | none => rfl
          | some caps =>
            obtain ⟨pre2, rest2, r2, hs, hall2, _, hk2, _⟩ := greedy_sound ok n k s _ caps hg
            have := huniq (c :: pre2) rest2 (by simp [hs]) (by
              intro x hx
              rcases List.mem_cons.mp hx with rfl | hx
              · exact hc
              · exact hall2 x hx) (by simp [hk2])
            simp at this
        · simp [hc]
      simp only [greedy, hnone]
      simp [hn, hk]
  | cons c pre ih =>
    have hc : ok c = true := hall c (by simp)
    have ih' := ih (acc ++ [c]) (fun x hx => hall x (by simp [hx])) (by simpa using hn)
      (by
        intro pre' rest' he hall' hk'
        have := huniq (c :: pre') rest' (by simp [he]) (by
          intro x hx
          rcases List.mem_cons.mp hx with rfl | hx
          · exact hc
          · exact hall' x hx) hk'
        simpa using this)
    show greedy ok n k acc (c :: (pre ++ rest)) = _
    simp only [greedy, hc, if_true]
    rw [ih']
    simp

theorem matchToks_lit (b : String) (s : List Char) (caps : List (List Char)) :
    matchToks [.lit b] s = some caps ↔ s = b.data ∧ caps = [] := by
  simp only [matchToks]
  cases hs : stripLit b.data s with
  | none =>
    simp only [reduceCtorEq, false_iff, not_and]
    intro h
    rw [h] at hs
    have := (stripLit_eq_some b.data b.data []).mpr (by simp)
    rw [this] at hs
    cases hs
  | some r =>
    have hr := (stripLit_eq_some _ _ _).mp hs
    simp only []
    by_cases hnil : r = []
    · subst hnil
      simp [hr, eq_comm]
    · simp only [hnil, if_false, reduceCtorEq, false_iff, not_and]
      intro h
      rw [h] at hr
      exact absurd (by simpa using hr) hnil

theorem matchToks_lit_group_lit (a b : String) (at_ : Atom) (n : Nat) (s : List Char)
    (caps : List (List Char)) :
    matchToks [.lit a, .group at_ n, .lit b] s = some caps ↔
      ∃ h, s = a.data ++ h ++ b.data ∧ n ≤ h.length ∧ (∀ c ∈ h, at_.test c = true) ∧
        caps = [h] := by
  constructor
  · intro hm
    simp only [matchToks] at hm
    cases hs : stripLit a.data s with
    | none => simp [hs] at hm
    | some r =>
      rw [hs] at hm
      simp only [] at hm
      have hr := (stripLit_eq_some _ _ _).mp hs
      obtain ⟨pre, rest, r', hsplit, hall, hn, hk, hcaps⟩ := greedy_sound _ _ _ _ _ _ hm
      have hk' : matchToks [.lit b] rest = some r' := by simpa [matchToks] using hk
      obtain ⟨hrest, hr'⟩ := (matchToks_lit b rest r').mp hk'
      refine ⟨pre, ?_, by simpa using hn, hall, by simp [hcaps, hr']⟩
      rw [hr, hsplit, hrest, List.append_assoc]
  · rintro ⟨h, hs, hn, hall, hcaps⟩
    simp only [matchToks]
    have hstrip : stripLit a.data s = some (h ++ b.data) :=
      (stripLit_eq_some _ _ _).mpr (by rw [hs, List.append_assoc])
    rw [hstrip]
    simp only []
    have hk : matchToks [.lit b] b.data = some [] := (matchToks_lit b _ _).mpr ⟨rfl, rfl⟩
    have := greedy_complete at_.test n (matchToks [.lit b]) h b.data [] [] hall
      (by simpa using hn) hk (by
        intro pre' rest' he _ hk'
        cases hx : matchToks [.lit b] rest' with
        | none => exact absurd hx hk'
        | some r =>
          obtain ⟨hrest, _⟩ := (matchToks_lit b rest' r).mp hx
          rw [hrest] at he
          have := List.append_cancel_right he
          rw [this])
    simpa [hcaps, matchToks] using this

theorem matchToks_two_groups (a b c : String) (at1 at2 : Atom) (n1 n2 : Nat) (b0 : Char)
    (bt : List Char) (hb : b.data = b0 :: bt) (hb0 : at1.test b0 = false) (s : List Char)
    (caps : List (List Char)) :
    matchToks [.lit a, .group at1 n1, .lit b, .group at2 n2, .lit c] s = some caps ↔
      ∃ h m, s = a.data ++ h ++ b.data ++ m ++ c.data ∧ n1 ≤ h.length ∧
        (∀ x ∈ h, at1.test x = true) ∧ n2 ≤ m.length ∧ (∀ x ∈ m, at2.test x = true) ∧
        caps = [h, m] := by
  have hk_eq : ∀ r, matchToks [.lit b, .group at2 n2, .lit c] r =
      (match stripLit b.data r with
        | some r => greedy at2.test n2 (matchToks [.lit c]) [] r
        | none => none) := by
    intro r; simp only [matchToks]
  constructor
  · intro hm
    rw [matchToks] at hm
    cases hs : stripLit a.data s with
    | none => simp [hs] at hm
    | some r =>
      rw [hs] at hm
      simp only [] at hm
      rw [matchToks] at hm
      have hr := (stripLit_eq_some _ _ _).mp hs
      obtain ⟨pre, rest, r', hsplit, hall, hn, hk, hcaps⟩ := greedy_sound _ _ _ _ _ _ hm
      obtain ⟨m, hrest, hn2, hall2, hr'⟩ := (matchToks_lit_group_lit b c at2 n2 rest r').mp hk
      refine ⟨pre, m, ?_, by simpa using hn, hall, hn2, hall2, by simp [hcaps, hr']⟩
      rw [hr, hsplit, hrest]
      simp [List.append_assoc]
  · rintro ⟨h, m, hs, hn1, hall1, hn2, hall2, hcaps⟩
    rw [matchToks]
    have hstrip : stripLit a.data s = some (h ++ (b.data ++ m ++ c.data)) :=
      (stripLit_eq_some _ _ _).mpr (by rw [hs]; simp [List.append_assoc])
    rw [hstrip]
    simp only []
    rw [matchToks]
    have hk : matchToks [.lit b, .group at2 n2, .lit c] (b.data ++ m ++ c.data) = some [m] :=
      (matchToks_lit_group_lit b c at2 n2 _ _).mpr ⟨m, rfl, hn2, hall2, rfl⟩
    have := greedy_complete at1.test n1 (matchToks [.lit b, .group at2 n2, .lit c]) h
      (b.data ++ m ++ c.data) [] [m] hall1 (by simpa using hn1) hk (by
        intro pre' rest' he hall' _
        rw [hb] at he
        rcases List.append_eq_append_iff.mp he with ⟨a', h1, _⟩ | ⟨c', h1, h2⟩
        · rw [h1]; simp
        · cases c' with
          | nil => rw [h1]; simp
          | cons x c' =>
            simp only [List.cons_append, List.append_assoc, List.cons.injEq] at h2
            have : at1.test b0 = true := hall' b0 (by rw [h1, ← h2.1]; simp)
            rw [hb0] at this
            cases this)
    simpa [hcaps] using this

theorem range09az_test (c : Char) :
    Atom.range09az.test c = true ↔ ('0' ≤ c ∧ c ≤ '9') ∨ ('a' ≤ c ∧ c ≤ 'z') := by
  simp [Atom.test]

theorem dot_test (c : Char) : Atom.dot.test c = true ↔ c ≠ '\n' ∧ c ≠ '\r' := by
  simp [Atom.test]

theorem isHashPart_iff (h : String) :
    isHashPart h ↔ 1 ≤ h.data.length ∧ ∀ c ∈ h.data, Atom.range09az.test c = true := by
  unfold isHashPart
  constructor
  · rintro ⟨h1, h2⟩
    refine ⟨?_, fun c hc => (range09az_test c).mpr (h2 c hc)⟩
    cases hd : h.data with
    | nil => exact absurd hd h1
    | cons a t => simp
  · rintro ⟨h1, h2⟩
    refine ⟨?_, fun c hc => (range09az_test c).mp (h2 c hc)⟩
    intro hd
    rw [hd] at h1
    simp at h1

theorem regex_match_eq_some (pattern : List Tok) (path : String) (ms : List String) :
    regex_match pattern path = some ms ↔
      ∃ caps, matchToks pattern path.data = some caps ∧ ms = path :: caps.map String.mk := by
  unfold regex_match
  cases matchToks pattern path.data with
  | none => simp
  | some caps => simp [eq_comm]

theorem regex_match_cacheInfo (path : String) (ms : List String) :
    regex_match [.lit "/nix-cache-info"] path = some ms ↔
      path = "/nix-cache-info" ∧ ms = [path] := by
  rw [regex_match_eq_some]
  constructor
  · rintro ⟨caps, hm, rfl⟩
    obtain ⟨h1, rfl⟩ := (matchToks_lit _ _ _).mp hm
    exact ⟨String.ext h1, rfl⟩
  · rintro ⟨rfl, rfl⟩
    exact ⟨[], (matchToks_lit _ _ _).mpr ⟨rfl, rfl⟩, rfl⟩

theorem regex_match_one_hash (a b : String) (path : String) (ms : List String) :
    regex_match [.lit a, .group .range09az 1, .lit b] path = some ms ↔
      ∃ h : String, isHashPart h ∧ path = a ++ h ++ b ∧ ms = [path, h] := by
  rw [regex_match_eq_some]
  constructor
  · rintro ⟨caps, hm, rfl⟩
    obtain ⟨h, hs, hn, hall, rfl⟩ := (matchToks_lit_group_lit _ _ _ _ _ _).mp hm
    refine ⟨⟨h⟩, (isHashPart_iff _).mpr ⟨hn, hall⟩, ?_, rfl⟩
    apply String.ext
    simp [String.data_append, hs]
  · rintro ⟨h, hh, rfl, rfl⟩
    obtain ⟨hn, hall⟩ := (isHashPart_iff _).mp hh
    refine ⟨[h.data], (matchToks_lit_group_lit _ _ _ _ _ _).mpr ⟨h.data, ?_, hn, hall, rfl⟩, rfl⟩
    simp [String.data_append]

theorem regex_match_realisation (path : String) (ms : List String) :
    regex_match [.lit "/realisations/", .group .dot 0, .lit ".doi"] path = some ms ↔
      ∃ d : String, noLineTerminator d ∧ path = "/realisations/" ++ d ++ ".doi" ∧
        ms = [path, d] := by
  rw [regex_match_eq_some]
  constructor
  · rintro ⟨caps, hm, rfl⟩
    obtain ⟨h, hs, _, hall, rfl⟩ := (matchToks_lit_group_lit _ _ _ _ _ _).mp hm
    refine ⟨⟨h⟩, fun c hc => (dot_test c).mp (hall c hc), ?_, rfl⟩
    apply String.ext
    simp only [String.data_append, hs]
  · rintro ⟨d, hd, rfl, rfl⟩
    refine ⟨[d.data], (matchToks_lit_group_lit _ _ _ _ _ _).mpr
      ⟨d.data, ?_, Nat.zero_le _, fun c hc => (dot_test c).mpr (hd c hc), rfl⟩, rfl⟩
    simp only [String.data_append]

theorem regex_match_two_hashes (path : String) (ms : List String) :
    regex_match [.lit "/nar/", .group .range09az 1, .lit "-", .group .range09az 1, .lit ".nar"]
        path = some ms ↔
      ∃ h n : String, isHashPart h ∧ isHashPart n ∧ path = "/nar/" ++ h ++ "-" ++ n ++ ".nar" ∧
        ms = [path, h, n] := by
  rw [regex_match_eq_some]
  constructor
  · rintro ⟨caps, hm, rfl⟩
    obtain ⟨h, m, hs, hn1, hall1, hn2, hall2, rfl⟩ :=
      (matchToks_two_groups _ _ _ _ _ _ _ '-' [] rfl (by decide) _ _).mp hm
    refine ⟨⟨h⟩, ⟨m⟩, (isHashPart_iff _).mpr ⟨hn1, hall1⟩, (isHashPart_iff _).mpr ⟨hn2, hall2⟩,
      ?_, rfl⟩
    apply String.ext
    simp only [String.data_append, hs]
  · rintro ⟨h, n, hh, hn, rfl, rfl⟩
    obtain ⟨hn1, hall1⟩ := (isHashPart_iff _).mp hh
    obtain ⟨hn2, hall2⟩ := (isHashPart_iff _).mp hn
    refine ⟨[h.data, n.data],
      (matchToks_two_groups _ _ _ _ _ _ _ '-' [] rfl (by decide) _ _).mpr
        ⟨h.data, n.data, ?_, hn1, hall1, hn2, hall2, rfl⟩, rfl⟩
    simp only [String.data_append]

theorem routing_unfold (path : String) :
    routing path =
      match regex_match patCacheInfo path with
      | some ms => some (.getNixCacheInfo, ⟨path, ms⟩)
      | none =>
        match regex_match patNarInfo path with
        | some ms => some (.getNarInfo, ⟨path, ms⟩)
        | none =>
          match regex_match patNar path with
          | some ms => some (.getNar, ⟨path, ms⟩)
          | none =>
            match regex_match patNarDeprecated path with
            | some ms => some (.getNarDeprecated, ⟨path, ms⟩)
            | none =>
              match regex_match patRealisation path with
              | some ms => some (.getRealisation, ⟨path, ms⟩)
              | none => none := by
  unfold routing lookup routes patCacheInfo patNarInfo patNar patNarDeprecated patRealisation
  simp only [List.findSome?]
  cases regex_match [.lit "/nix-cache-info"] path <;> simp only [Option.map]
  cases regex_match [.lit "/", .group .range09az 1, .lit ".narinfo"] path <;> simp only [Option.map]
  cases regex_match [.lit "/nar/", .group .range09az 1, .lit "-", .group .range09az 1,
    .lit ".nar"] path <;> simp only [Option.map]
  cases regex_match [.lit "/nar/", .group .range09az 1, .lit ".nar"] path <;> simp only [Option.map]
  cases regex_match [.lit "/realisations/", .group .dot 0, .lit ".doi"] path <;> simp only [Option.map]

theorem dropWhile_hash (h : String) (hh : isHashPart h) (c : Char) (t : List Char)
    (hc : Atom.range09az.test c = false) :
    (h.data ++ c :: t).dropWhile Atom.range09az.test = c :: t := by
  obtain ⟨_, hall⟩ := (isHashPart_iff h).mp hh
  generalize h.data = l at hall
  induction l with
  | nil => simp [List.dropWhile, hc]
  | cons a l ih =>
    have ha : Atom.range09az.test a = true := hall a (by simp)
    simp only [List.cons_append, List.dropWhile_cons, ha, if_true]
    exact ih fun x hx => hall x (by simp [hx])

theorem dropWhile_nar (x : List Char) :
    ('n' :: 'a' :: 'r' :: '/' :: x).dropWhile Atom.range09az.test = '/' :: x := by
  have h1 : Atom.range09az.test 'n' = true := by decide
  have h2 : Atom.range09az.test 'a' = true := by decide
  have h3 : Atom.range09az.test 'r' = true := by decide
  have h4 : Atom.range09az.test '/' = false := by decide
  simp [List.dropWhile_cons, h1, h2, h3, h4]

theorem dropWhile_realisations (x : List Char) :
    ("realisations".data ++ '/' :: x).dropWhile Atom.range09az.test = '/' :: x :=
  dropWhile_hash "realisations" (by decide) '/' x (by decide)

theorem narInfo_not_nar (h : String) (hh : isHashPart h) (x : List Char) :
    ("/" ++ h ++ ".narinfo").data ≠ "/nar/".data ++ x := by
  intro he
  have he2 : h.data ++ '.' :: "narinfo".data = 'n' :: 'a' :: 'r' :: '/' :: x := by
    simpa [String.data_append] using he
  have := congrArg (List.dropWhile Atom.range09az.test) he2
  rw [dropWhile_hash h hh '.' _ (by decide), dropWhile_nar] at this
  simp at this

theorem narInfo_not_realisation (h : String) (hh : isHashPart h) (x : List Char) :
    ("/" ++ h ++ ".narinfo").data ≠ "/realisations/".data ++ x := by
  intro he
  have he2 : h.data ++ '.' :: "narinfo".data = "realisations".data ++ '/' :: x := by
    simpa [String.data_append] using he
  have := congrArg (List.dropWhile Atom.range09az.test) he2
  rw [dropWhile_hash h hh '.' _ (by decide), dropWhile_realisations] at this
  simp at this

theorem nar_not_deprecated (h n h2 : String) (hh : isHashPart h) (hh2 : isHashPart h2) :
    "/nar/" ++ h ++ "-" ++ n ++ ".nar" ≠ "/nar/" ++ h2 ++ ".nar" := by
  intro he
  have he2 : h.data ++ '-' :: (n.data ++ ".nar".data) = h2.data ++ '.' :: "nar".data := by
    simpa [String.data_append] using congrArg String.data he
  have := congrArg (List.dropWhile Atom.range09az.test) he2
  rw [dropWhile_hash h hh '-' _ (by decide), dropWhile_hash h2 hh2 '.' _ (by decide)] at this
  simp at this

theorem excl_cacheInfo (p : List Tok) (hp : regex_match p "/nix-cache-info" = none)
    (path : String) (a b : List String)
    (h1 : regex_match patCacheInfo path = some a) (h2 : regex_match p path = some b) : False := by
  obtain ⟨rfl, _⟩ := (regex_match_cacheInfo path a).mp h1
  rw [hp] at h2
  cases h2

theorem excl_narInfo_nar (path : String) (a b : List String)
    (h1 : regex_match patNarInfo path = some a) (h2 : regex_match patNar path = some b) :
    False := by
  obtain ⟨h, hh, rfl, _⟩ := (regex_match_one_hash _ _ path a).mp h1
  obtain ⟨h', n, _, _, he, _⟩ := (regex_match_two_hashes _ b).mp h2
  refine narInfo_not_nar h hh (h'.data ++ "-".data ++ n.data ++ ".nar".data) ?_
  rw [he]
  simp only [String.data_append, List.append_assoc]

theorem excl_narInfo_deprecated (path : String) (a b : List String)
    (h1 : regex_match patNarInfo path = some a)
    (h2 : regex_match patNarDeprecated path = some b) : False := by
  obtain ⟨h, hh, rfl, _⟩ := (regex_match_one_hash _ _ path a).mp h1
  obtain ⟨h', _, he, _⟩ := (regex_match_one_hash _ _ _ b).mp h2
  refine narInfo_not_nar h hh (h'.data ++ ".nar".data) ?_
  rw [he]
  simp only [String.data_append, List.append_assoc]

theorem excl_narInfo_realisation (path : String) (a b : List String)
    (h1 : regex_match patNarInfo path = some a)
    (h2 : regex_match patRealisation path = some b) : False := by
  obtain ⟨h, hh, rfl, _⟩ := (regex_match_one_hash _ _ path a).mp h1
  obtain ⟨d, _, he, _⟩ := (regex_match_realisation _ b).mp h2
  refine narInfo_not_realisation h hh (d.data ++ ".doi".data) ?_
  rw [he]
  simp only [String.data_append, List.append_assoc]

theorem excl_nar_deprecated (path : String) (a b : List String)
    (h1 : regex_match patNar path = some a)
    (h2 : regex_match patNarDeprecated path = some b) : False := by
  obtain ⟨h, n, hh, _, rfl, _⟩ := (regex_match_two_hashes path a).mp h1
  obtain ⟨h', hh', he, _⟩ := (regex_match_one_hash _ _ _ b).mp h2
  exact nar_not_deprecated h n h' hh hh' he

theorem excl_nar_realisation (path : String) (a b : List String)
    (h1 : regex_match patNar path = some a)
    (h2 : regex_match patRealisation path = some b) : False := by
  obtain ⟨h, n, _, _, rfl, _⟩ := (regex_match_two_hashes path a).mp h1
  obtain ⟨d, _, he, _⟩ := (regex_match_realisation _ b).mp h2
  have := congrArg String.data he
  simp [String.data_append] at this

theorem excl_deprecated_realisation (path : String) (a b : List String)
    (h1 : regex_match patNarDeprecated path = some a)
    (h2 : regex_match patRealisation path = some b) : False := by
  obtain ⟨h, _, rfl, _⟩ := (regex_match_one_hash _ _ path a).mp h1
  obtain ⟨d, _, he, _⟩ := (regex_match_realisation _ b).mp h2
  have := congrArg String.data he
  simp [String.data_append] at this

theorem eq_none_of_excl {α : Type} (o : Option α) (h : ∀ a, o = some a → False) : o = none := by
  cases o with
  | none => rfl
  | some a => exact (h a rfl).elim

theorem routing_of_cacheInfo (path : String) (ms : List String)
    (h : regex_match patCacheInfo path = some ms) :
    routing path = some (.getNixCacheInfo, ⟨path, ms⟩) := by
  rw [routing_unfold, h]

theorem routing_of_narInfo (path : String) (ms : List String)
    (h : regex_match patNarInfo path = some ms) :
    routing path = some (.getNarInfo, ⟨path, ms⟩) := by
  have h1 := eq_none_of_excl _ fun a ha => excl_cacheInfo patNarInfo (by decide) path a ms ha h
  rw [routing_unfold, h1, h]

theorem routing_of_nar (path : String) (ms : List String)
    (h : regex_match patNar path = some ms) :
    routing path = some (.getNar, ⟨path, ms⟩) := by
  have h1 := eq_none_of_excl _ fun a ha => excl_cacheInfo patNar (by decide) path a ms ha h
  have h2 := eq_none_of_excl _ fun a ha => excl_narInfo_nar path a ms ha h
  rw [routing_unfold, h1, h2, h]

theorem routing_of_deprecated (path : String) (ms : List String)
    (h : regex_match patNarDeprecated path = some ms) :
    routing path = some (.getNarDeprecated, ⟨path, ms⟩) := by
  have h1 := eq_none_of_excl _ fun a ha =>
    excl_cacheInfo patNarDeprecated (by decide) path a ms ha h
  have h2 := eq_none_of_excl _ fun a ha => excl_narInfo_deprecated path a ms ha h
  have h3 := eq_none_of_excl _ fun a ha => excl_nar_deprecated path a ms ha h
  rw [routing_unfold, h1, h2, h3, h]

theorem routing_of_realisation (path : String) (ms : List String)
    (h : regex_match patRealisation path = some ms) :
    routing path = some (.getRealisation, ⟨path, ms⟩) := by
  have h1 := eq_none_of_excl _ fun a ha =>
    excl_cacheInfo patRealisation (by decide) path a ms ha h
  have h2 := eq_none_of_excl _ fun a ha => excl_narInfo_realisation path a ms ha h
  have h3 := eq_none_of_excl _ fun a ha => excl_nar_realisation path a ms ha h
  have h4 := eq_none_of_excl _ fun a ha => excl_deprecated_realisation path a ms ha h
  rw [routing_unfold, h1, h2, h3, h4, h]

/-- The operation `routing` selects is the one whose pattern matches. -/
theorem routing_eq_some (path : String) (op : Operation) (req : Request)
    (h : routing path = some (op, req)) :
    ∃ ms, req = ⟨path, ms⟩ ∧
      regex_match (match op with
        | .getNixCacheInfo => patCacheInfo
        | .getNarInfo => patNarInfo
        | .getNar => patNar
        | .getNarDeprecated => patNarDeprecated
        | .getRealisation => patRealisation) path = some ms := by
  rw [routing_unfold] at h
  cases h1 : regex_match patCacheInfo path with
  | some ms => rw [h1] at h; cases h; exact ⟨ms, rfl, h1⟩
  | none =>
    rw [h1] at h
    cases h2 : regex_match patNarInfo path with
    | some ms => rw [h2] at h; cases h; exact ⟨ms, rfl, h2⟩
    | none =>
      rw [h2] at h
      cases h3 : regex_match patNar path with
      | some ms => rw [h3] at h; cases h; exact ⟨ms, rfl, h3⟩
      | none =>
        rw [h3] at h
        cases h4 : regex_match patNarDeprecated path with
        | some ms => rw [h4] at h; cases h; exact ⟨ms, rfl, h4⟩
        | none =>
          rw [h4] at h
          cases h5 : regex_match patRealisation path with
          | some ms => rw [h5] at h; cases h; exact ⟨ms, rfl, h5⟩
          | none => rw [h5] at h; cases h

theorem routing_eq_none (path : String) :
    routing path = none ↔
      regex_match patCacheInfo path = none ∧ regex_match patNarInfo path = none ∧
      regex_match patNar path = none ∧ regex_match patNarDeprecated path = none ∧
      regex_match patRealisation path = none := by
  rw [routing_unfold]
  cases regex_match patCacheInfo path <;> cases regex_match patNarInfo path <;>
    cases regex_match patNar path <;> cases regex_match patNarDeprecated path <;>
    cases regex_match patRealisation path <;> simp

/-- The table of `nix-serve.cpp` selects the same handler as the table of
`Server::listen`: the two patterns whose order differs never match the same
path. -/
theorem lookup_serveRoutes (path : String) : lookup serveRoutes path = routing path := by
  rw [routing_unfold]
  unfold lookup serveRoutes
  simp only [List.findSome?]
  cases regex_match patCacheInfo path <;> simp only [Option.map]
  cases regex_match patNarInfo path <;> simp only [Option.map]
  cases regex_match patNar path <;> simp only [Option.map]
  cases h5 : regex_match patRealisation path <;> cases h4 : regex_match patNarDeprecated path <;>
    simp only [Option.map]
  exact (excl_deprecated_realisation path _ _ h4 h5).elim

theorem process_request_routed (srv : Server) (BUFSIZ : Nat) (path : String) (op : Operation)
    (req : Request) (res : Response) (h : routing path = some (op, req))
    (hc : srv.call op req Response.fresh = .returned res) :
    process_request srv BUFSIZ path = if res.status = -1 then { res with status := 200 } else res := by
  simp only [process_request, h, hc]

theorem process_request_threw (srv : Server) (BUFSIZ : Nat) (path : String) (op : Operation)
    (req : Request) (res : Response) (what : String) (h : routing path = some (op, req))
    (hc : srv.call op req Response.fresh = .threw res what) :
    process_request srv BUFSIZ path =
      { status := 500, body := snprintf BUFSIZ "Error 500\n" what,
        content_type := some "text/plain", content_provider := res.content_provider } := by
  simp only [process_request, h, hc]
  simp [handleException, Response.set_content]

theorem process_request_unrouted (srv : Server) (BUFSIZ : Nat) (path : String)
    (h : routing path = none) :
    process_request srv BUFSIZ path =
      { status := 404, body := "", content_type := none, content_provider := none } := by
  simp only [process_request, h]
  rfl

theorem cacheInfo_unlines (dir : String) :
    "StoreDir: " ++ dir ++ "\nWantMassQuery: 1\nPriority: 30\n" =
      unlines ["StoreDir: " ++ dir, "WantMassQuery: 1", "Priority: 30"] := by
  apply String.ext; simp [unlines, String.data_append]

theorem digitChar_ne_newline (n : Nat) : Nat.digitChar n ≠ '\n' := by
  by_cases h : n < 16
  · interval_cases n <;> decide
  · have e : Nat.digitChar n = '*' := by
      unfold Nat.digitChar
      repeat (rw [if_neg (by omega)])
    rw [e]
    decide

theorem toDigitsCore_no_newline (b fuel n : Nat) (ds : List Char) (h : '\n' ∉ ds) :
    '\n' ∉ Nat.toDigitsCore b fuel n ds := by
  induction fuel generalizing n ds with
  | zero => simpa [Nat.toDigitsCore] using h
  | succ f ih =>
    simp only [Nat.toDigitsCore]
    have hd : '\n' ∉ Nat.digitChar (n % b) :: ds := by
      intro hm
      rcases List.mem_cons.mp hm with hm | hm
      · exact digitChar_ne_newline _ hm.symm
      · exact h hm
    split
    · exact hd
    · exact ih _ _ hd

theorem toString_nat_no_newline (n : Nat) : '\n' ∉ (toString n).data := by
  show '\n' ∉ (Nat.repr n).data
  simp only [Nat.repr, Nat.toDigits, List.asString]
  exact toDigitsCore_no_newline _ _ _ _ (by simp)

theorem stripTrailingSlash_data (s : String) :
    (stripTrailingSlash s).data =
      if s.data.getLast? = some '/' then s.data.dropLast else s.data := by
  unfold stripTrailingSlash
  by_cases h : s.data.getLast? = some '/'
  · have hne : s.data ≠ [] := by
      intro he
      rw [he] at h
      cases h
    rw [if_pos ⟨hne, h⟩, if_pos h]
  · rw [if_neg (fun hx => h hx.2), if_neg h]

theorem stripTrailingSlash_no_newline (s : String) (h : '\n' ∉ s.data) :
    '\n' ∉ (stripTrailingSlash s).data := by
  rw [stripTrailingSlash_data]
  split
  · exact fun hm => h (List.dropLast_subset _ hm)
  · exact h

theorem intercalate_go_no_newline (acc : String) (l : List String) (hacc : '\n' ∉ acc.data)
    (hl : ∀ x ∈ l, '\n' ∉ x.data) : '\n' ∉ (String.intercalate.go acc " " l).data := by
  induction l generalizing acc with
  | nil => simpa [String.intercalate.go] using hacc
  | cons a l ih =>
    simp only [String.intercalate.go]
    apply ih
    · have ha := hl a (by simp)
      simp only [String.data_append, List.mem_append, not_or]
      exact ⟨⟨hacc, by decide⟩, ha⟩
    · exact fun x hx => hl x (by simp [hx])

theorem intercalate_no_newline (l : List String) (hl : ∀ x ∈ l, '\n' ∉ x.data) :
    '\n' ∉ (" ".intercalate l).data := by
  cases l with
  | nil => simp [String.intercalate]
  | cons a l =>
    simp only [String.intercalate]
    exact intercalate_go_no_newline a l (hl a (by simp)) fun x hx => hl x (by simp [hx])

theorem isHashPart_no_newline (h : String) (hh : isHashPart h) : '\n' ∉ h.data := by
  intro hm
  have := hh.2 _ hm
  revert this
  decide

theorem docLines_props (srv : Server) (h : String) (p : StorePath) (info : ValidPathInfo)
    (hh : '\n' ∉ h.data)
    (hpath : '\n' ∉ (srv.store.printStorePath p).data)
    (hrefs : ∀ i ∈ info.references, '\n' ∉ (srv.store.printStorePath i).data)
    (hdrv : ∀ d, info.deriver = some d → '\n' ∉ (srv.store.printStorePath d).data)
    (hhash : '\n' ∉ (srv.store.to_string info.narHash).data) :
    ∀ l ∈ docLines srv h p info none, '\n' ∉ l.data ∧ ¬ "Sig:".data <+: l.data := by
  intro l hl
  have hsize := toString_nat_no_newline info.narSize
  have hrefs2 : '\n' ∉ (" ".intercalate
      (info.references.map fun i => stripTrailingSlash (srv.store.printStorePath i))).data := by
    apply intercalate_no_newline
    intro x hx
    obtain ⟨i, hi, rfl⟩ := List.mem_map.mp hx
    exact stripTrailingSlash_no_newline _ (hrefs i hi)
  unfold docLines narInfoLines at hl
  rcases List.mem_append.mp hl with hl | hl
  · rcases List.mem_append.mp hl with hl | hl
    · rcases List.mem_append.mp hl with hl | hl
      · simp only [List.mem_cons, List.mem_singleton, List.not_mem_nil, or_false] at hl
        rcases hl with rfl | rfl | rfl | rfl | rfl
        · simp [String.data_append, hpath]
        · simp [String.data_append, hh, hhash]
        · decide
        · simp [String.data_append, hhash]
        · simp [String.data_append, hsize]
      · split at hl
        · cases hl
        · rw [List.mem_singleton] at hl
          subst hl
          simp [String.data_append, hrefs2]
    · cases hd : info.deriver with
      | none => rw [hd] at hl; cases hl
      | some d =>
        rw [hd] at hl
        simp only [Option.map_some', List.mem_singleton] at hl
        subst hl
        have := stripTrailingSlash_no_newline _ (hdrv d hd)
        simp [String.data_append, this]
  · cases hl

theorem regex_match_eq_none_iff (pattern : List Tok) (path : String) (form : Prop)
    (h : ∀ ms, regex_match pattern path = some ms → form)
    (h2 : form → ∃ ms, regex_match pattern path = some ms) :
    regex_match pattern path = none ↔ ¬ form := by
  constructor
  · intro hn hf
    obtain ⟨ms, hms⟩ := h2 hf
    rw [hn] at hms
    cases hms
  · intro hnf
    exact eq_none_of_excl _ fun ms hms => hnf (h ms hms)

theorem routing_cacheInfo_iff (path : String) (req : Request) :
    routing path = some (.getNixCacheInfo, req) ↔
      path = "/nix-cache-info" ∧ req = routed path [] := by
  constructor
  · intro hr
    obtain ⟨ms, rfl, hm⟩ := routing_eq_some path _ _ hr
    obtain ⟨hp, rfl⟩ := (regex_match_cacheInfo path ms).mp hm
    exact ⟨hp, rfl⟩
  · rintro ⟨hp, rfl⟩
    exact routing_of_cacheInfo path _ ((regex_match_cacheInfo path _).mpr ⟨hp, rfl⟩)

theorem routing_narInfo_iff (path : String) (req : Request) :
    routing path = some (.getNarInfo, req) ↔
      ∃ h, isHashPart h ∧ path = "/" ++ h ++ ".narinfo" ∧ req = routed path [h] := by
  constructor
  · intro hr
    obtain ⟨ms, rfl, hm⟩ := routing_eq_some path _ _ hr
    obtain ⟨h, hh, hp, rfl⟩ := (regex_match_one_hash _ _ path ms).mp hm
    exact ⟨h, hh, hp, rfl⟩
  · rintro ⟨h, hh, hp, rfl⟩
    exact routing_of_narInfo path _ ((regex_match_one_hash _ _ path _).mpr ⟨h, hh, hp, rfl⟩)

theorem routing_nar_iff (path : String) (req : Request) :
    routing path = some (.getNar, req) ↔
      ∃ h n, isHashPart h ∧ isHashPart n ∧ path = "/nar/" ++ h ++ "-" ++ n ++ ".nar" ∧
        req = routed path [h, n] := by
  constructor
  · intro hr
    obtain ⟨ms, rfl, hm⟩ := routing_eq_some path _ _ hr
    obtain ⟨h, n, hh, hn, hp, rfl⟩ := (regex_match_two_hashes path ms).mp hm
    exact ⟨h, n, hh, hn, hp, rfl⟩
  · rintro ⟨h, n, hh, hn, hp, rfl⟩
    exact routing_of_nar path _ ((regex_match_two_hashes path _).mpr ⟨h, n, hh, hn, hp, rfl⟩)

theorem routing_deprecated_iff (path : String) (req : Request) :
    routing path = some (.getNarDeprecated, req) ↔
      ∃ h, isHashPart h ∧ path = "/nar/" ++ h ++ ".nar" ∧ req = routed path [h] := by
  constructor
  · intro hr
    obtain ⟨ms, rfl, hm⟩ := routing_eq_some path _ _ hr
    obtain ⟨h, hh, hp, rfl⟩ := (regex_match_one_hash _ _ path ms).mp hm
    exact ⟨h, hh, hp, rfl⟩
  · rintro ⟨h, hh, hp, rfl⟩
    exact routing_of_deprecated path _
      ((regex_match_one_hash _ _ path _).mpr ⟨h, hh, hp, rfl⟩)

theorem routing_realisation_iff (path : String) (req : Request) :
    routing path = some (.getRealisation, req) ↔
      ∃ d, noLineTerminator d ∧ path = "/realisations/" ++ d ++ ".doi" ∧
        req = routed path [d] := by
  constructor
  · intro hr
    obtain ⟨ms, rfl, hm⟩ := routing_eq_some path _ _ hr
    obtain ⟨d, hd, hp, rfl⟩ := (regex_match_realisation path ms).mp hm
    exact ⟨d, hd, hp, rfl⟩
  · rintro ⟨d, hd, hp, rfl⟩
    exact routing_of_realisation path _
      ((regex_match_realisation path _).mpr ⟨d, hd, hp, rfl⟩)

theorem routing_none_iff (path : String) :
    routing path = none ↔
      path ≠ "/nix-cache-info" ∧
      (¬ ∃ h, isHashPart h ∧ path = "/" ++ h ++ ".narinfo") ∧
      (¬ ∃ h n, isHashPart h ∧ isHashPart n ∧ path = "/nar/" ++ h ++ "-" ++ n ++ ".nar") ∧
      (¬ ∃ h, isHashPart h ∧ path = "/nar/" ++ h ++ ".nar") ∧
      (¬ ∃ d, noLineTerminator d ∧ path = "/realisations/" ++ d ++ ".doi") := by
  rw [routing_eq_none]
  have e1 := regex_match_eq_none_iff patCacheInfo path (path = "/nix-cache-info")
    (fun ms hm => ((regex_match_cacheInfo path ms).mp hm).1)
    (fun hf => ⟨_, (regex_match_cacheInfo path _).mpr ⟨hf, rfl⟩⟩)
  have e2 := regex_match_eq_none_iff patNarInfo path
    (∃ h, isHashPart h ∧ path = "/" ++ h ++ ".narinfo")
    (fun ms hm => by
      obtain ⟨h, hh, hp, _⟩ := (regex_match_one_hash _ _ path ms).mp hm
      exact ⟨h, hh, hp⟩)
    (fun ⟨h, hh, hp⟩ => ⟨_, (regex_match_one_hash _ _ path _).mpr ⟨h, hh, hp, rfl⟩⟩)
  have e3 := regex_match_eq_none_iff patNar path
    (∃ h n, isHashPart h ∧ isHashPart n ∧ path = "/nar/" ++ h ++ "-" ++ n ++ ".nar")
    (fun ms hm => by
      obtain ⟨h, n, hh, hn, hp, _⟩ := (regex_match_two_hashes path ms).mp hm
      exact ⟨h, n, hh, hn, hp⟩)
    (fun ⟨h, n, hh, hn, hp⟩ => ⟨_, (regex_match_two_hashes path _).mpr ⟨h, n, hh, hn, hp, rfl⟩⟩)
  have e4 := regex_match_eq_none_iff patNarDeprecated path
    (∃ h, isHashPart h ∧ path = "/nar/" ++ h ++ ".nar")
    (fun ms hm => by
      obtain ⟨h, hh, hp, _⟩ := (regex_match_one_hash _ _ path ms).mp hm
      exact ⟨h, hh, hp⟩)
    (fun ⟨h, hh, hp⟩ => ⟨_, (regex_match_one_hash _ _ path _).mpr ⟨h, hh, hp, rfl⟩⟩)
  have e5 := regex_match_eq_none_iff patRealisation path
    (∃ d, noLineTerminator d ∧ path = "/realisations/" ++ d ++ ".doi")
    (fun ms hm => by
      obtain ⟨d, hd, hp, _⟩ := (regex_match_realisation path ms).mp hm
      exact ⟨d, hd, hp⟩)
    (fun ⟨d, hd, hp⟩ => ⟨_, (regex_match_realisation path _).mpr ⟨d, hd, hp, rfl⟩⟩)
  rw [e1, e2, e3, e4, e5]

theorem sink_foldl (chunks : List String) (sink : DataSink) :
    chunks.foldl (fun s data => { s with written := s.written ++ data }) sink =
      { written := chunks.foldl (fun r s => r ++ s) sink.written, isDone := sink.isDone } := by
  induction chunks generalizing sink with
  | nil => rfl
  | cons c cs ih => simp only [List.foldl_cons, ih]

theorem contentProvider_written (srv : Server) (storePath : StorePath) :
    (contentProvider srv storePath ⟨"", false⟩).2 =
      ⟨String.join (srv.store.dumpPath (srv.store.printStorePath storePath)).chunks, true⟩ := by
  simp only [contentProvider, sink_foldl]
  cases (srv.store.dumpPath (srv.store.printStorePath storePath)).error <;> rfl

theorem nar_path_eq (h n : String) :
    "/" ++ ("nar/" ++ h ++ "-" ++ n ++ ".nar") = "/nar/" ++ h ++ "-" ++ n ++ ".nar" := by
  apply String.ext; simp [String.data_append]

theorem routing_nar (h n : String) (hh : isHashPart h) (hn : isHashPart n) :
    routing ("/nar/" ++ h ++ "-" ++ n ++ ".nar") =
      some (.getNar, routed ("/nar/" ++ h ++ "-" ++ n ++ ".nar") [h, n]) :=
  (routing_nar_iff _ _).mpr ⟨h, n, hh, hn, rfl, rfl⟩

theorem routing_narInfo (h : String) (hh : isHashPart h) :
    routing ("/" ++ h ++ ".narinfo") =
      some (.getNarInfo, routed ("/" ++ h ++ ".narinfo") [h]) :=
  (routing_narInfo_iff _ _).mpr ⟨h, hh, rfl, rfl⟩

theorem routing_deprecated (h : String) (hh : isHashPart h) :
    routing ("/nar/" ++ h ++ ".nar") =
      some (.getNarDeprecated, routed ("/nar/" ++ h ++ ".nar") [h]) :=
  (routing_deprecated_iff _ _).mpr ⟨h, hh, rfl, rfl⟩

theorem routing_realisation (d : String) (hd : noLineTerminator d) :
    routing ("/realisations/" ++ d ++ ".doi") =
      some (.getRealisation, routed ("/realisations/" ++ d ++ ".doi") [d]) :=
  (routing_realisation_iff _ _).mpr ⟨d, hd, rfl, rfl⟩

theorem getNar_threw (srv : Server) (path h n what : String) (res : Response)
    (hparse : srv.store.parseAny n = .error what) :
    getNar srv (routed path [h, n]) res = .threw res what := by
  have e2 : (routed path [h, n]).sub 2 = n := rfl
  simp only [getNar, e2, hparse]

theorem getNar_unresolved (srv : Server) (path h n : String) (res : Response) (expected : Hash)
    (hparse : srv.store.parseAny n = .ok expected)
    (hp : srv.store.queryPathFromHashPart h = .ok none) :
    getNar srv (routed path [h, n]) res = .returned (notFound res "No such path.\n") := by
  have e1 : (routed path [h, n]).sub 1 = h := rfl
  have e2 : (routed path [h, n]).sub 2 = n := rfl
  simp only [getNar, e1, e2, hparse, hp]

theorem getNar_resolved (srv : Server) (path h n : String) (res : Response) (expected : Hash)
    (storePath : StorePath) (info : ValidPathInfo)
    (hparse : srv.store.parseAny n = .ok expected)
    (hp : srv.store.queryPathFromHashPart h = .ok (some storePath))
    (hi : srv.store.queryPathInfo storePath = .ok info) :
    getNar srv (routed path [h, n]) res =
      if info.narHash ≠ expected then
        .returned (notFound res "Incorrect NAR hash. Maybe the path has been recreated.\n")
      else .returned (res.set_chunked_content_provider "text/plain" storePath) := by
  have e1 : (routed path [h, n]).sub 1 = h := rfl
  have e2 : (routed path [h, n]).sub 2 = n := rfl
  simp only [getNar, e1, e2, hparse, hp, hi]

/-! ## The claims -/

/-- C1. For a resolved path, `getNarInfo` returns with content type `text/plain`
and a body that is exactly the lines `StorePath`, `URL: nar/<h>-<narhash>.nar`,
`Compression: none`, `NarHash`, `NarSize` (decimal), then `References` when
the reference set is not empty, `Deriver` when there is one, and `Sig` when a
key is configured, in this order, each ended by a newline; a path of size 128
without references, deriver or key gives the five-line body of the scenario. -/
theorem getNarInfo_exact_lines (srv : Server) (req : Request) (res : Response)
    (storePath : StorePath) (info : ValidPathInfo)
    (hp : srv.store.queryPathFromHashPart (req.sub 1) = .ok (some storePath))
    (hi : srv.store.queryPathInfo storePath = .ok info) :
    (srv.secretKey = none →
      getNarInfo srv req res = .returned (res.set_content
        (unlines (narInfoLines (srv.store.printStorePath storePath)
          ("nar/" ++ req.sub 1 ++ "-" ++ srv.store.to_string info.narHash ++ ".nar")
          (srv.store.to_string info.narHash) info.narSize
          (info.references.map fun i => stripTrailingSlash (srv.store.printStorePath i))
          (info.deriver.map fun d => stripTrailingSlash (srv.store.printStorePath d))
          none)) "text/plain")) ∧
    (∀ key fp, srv.secretKey = some key → srv.store.fingerprint info = .ok fp →
      getNarInfo srv req res = .returned (res.set_content
        (unlines (narInfoLines (srv.store.printStorePath storePath)
          ("nar/" ++ req.sub 1 ++ "-" ++ srv.store.to_string info.narHash ++ ".nar")
          (srv.store.to_string info.narHash) info.narSize
          (info.references.map fun i => stripTrailingSlash (srv.store.printStorePath i))
          (info.deriver.map fun d => stripTrailingSlash (srv.store.printStorePath d))
          (some (srv.store.signDetached key fp)))) "text/plain")) ∧
    (srv.secretKey = none → info.narSize = 128 → info.references = [] → info.deriver = none →
      getNarInfo srv req res = .returned (res.set_content
        ("StorePath: " ++ srv.store.printStorePath storePath ++ "\nURL: nar/" ++ req.sub 1 ++
          "-" ++ srv.store.to_string info.narHash ++ ".nar\nCompression: none\nNarHash: " ++
          srv.store.to_string info.narHash ++ "\nNarSize: 128\n") "text/plain")) := by
  have ho := getNarInfo_outcome srv req res storePath info hp hi
  refine ⟨?_, ?_, ?_⟩
  · intro hk
    rw [ho, hk]
    rfl
  · intro key fp hk hf
    rw [ho, hk]
    simp only [hf]
    rfl
  · intro hk hsz hr hd
    rw [ho, hk]
    simp only [docLines, narInfoLines, hsz, hr, hd, List.map_nil, if_true, Option.map_none',
      List.append_nil]
    congr 2
    apply String.ext
    simp [unlines, String.data_append]
    decide

set_option maxRecDepth 100000 in
/-- C1, at the example store: the path `abc123-hello` of size 128. -/
theorem getNarInfo_exact_lines_witness :
    exServer.store.queryPathFromHashPart ((routed "/abc123.narinfo" ["abc123"]).sub 1) =
        .ok (some exHello) ∧
    exServer.store.queryPathInfo exHello = .ok exHelloInfo ∧
    getNarInfo exServer (routed "/abc123.narinfo" ["abc123"]) Response.fresh =
      .returned (Response.fresh.set_content
        ("StorePath: /nix/store/abc123-hello\n" ++
          "URL: nar/abc123-18gnx4bjr07fmw3aiqz6dlv29hpy5cks18gnx4bjr07fmw3aiqz6.nar\n" ++
          "Compression: none\n" ++
          "NarHash: 18gnx4bjr07fmw3aiqz6dlv29hpy5cks18gnx4bjr07fmw3aiqz6\n" ++
          "NarSize: 128\n") "text/plain") :=
  ⟨by decide, by decide,
    ((getNarInfo_exact_lines exServer (routed "/abc123.narinfo" ["abc123"]) Response.fresh
      exHello exHelloInfo (by decide) (by decide)).2.2 rfl rfl rfl rfl).trans (by decide)⟩



/-- C8. `getNixCacheInfo` sets the body to `StoreDir: <dir>`, `WantMassQuery: 1`,
`Priority: 30`, each with its newline, with content type `text/plain`, and
leaves the status alone, so a `GET /nix-cache-info` is answered 200; the body
is the same for every request, response object and store with the same store
directory; for a directory without newline it reads as exactly these three
lines, and for `/nix/store` it is the string the test asserts. -/
theorem getNixCacheInfo_three_lines (srv : Server) (req : Request) (res : Response) :
    getNixCacheInfo srv req res = .returned
      { res with
        body := "StoreDir: " ++ srv.store.nixStore ++ "\nWantMassQuery: 1\nPriority: 30\n",
        content_type := some "text/plain" } ∧
    (∀ BUFSIZ : Nat, process_request srv BUFSIZ "/nix-cache-info" =
      { status := 200,
        body := "StoreDir: " ++ srv.store.nixStore ++ "\nWantMassQuery: 1\nPriority: 30\n",
        content_type := some "text/plain", content_provider := none }) ∧
    (∀ (srv2 : Server) (req2 : Request) (res2 : Response),
      srv2.store.nixStore = srv.store.nixStore →
        (getNixCacheInfo srv2 req2 res2).res.body = (getNixCacheInfo srv req res).res.body) ∧
    ('\n' ∉ srv.store.nixStore.data →
      getlines (getNixCacheInfo srv req res).res.body =
        ["StoreDir: " ++ srv.store.nixStore, "WantMassQuery: 1", "Priority: 30"]) ∧
    (srv.store.nixStore = "/nix/store" →
      (getNixCacheInfo srv req res).res.body =
        "StoreDir: /nix/store\nWantMassQuery: 1\nPriority: 30\n") := by
  refine ⟨rfl, ?_, ?_, ?_, ?_⟩
  · intro BUFSIZ
    have hr : routing "/nix-cache-info" =
        some (.getNixCacheInfo, ⟨"/nix-cache-info", ["/nix-cache-info"]⟩) := by decide
    rw [process_request_routed srv BUFSIZ _ _ _ _ hr rfl]
    rfl
  · intro srv2 req2 res2 h
    simp [getNixCacheInfo, Outcome.res, Response.set_content, h]
  · intro h
    show getlines ("StoreDir: " ++ srv.store.nixStore ++ "\nWantMassQuery: 1\nPriority: 30\n") = _
    rw [cacheInfo_unlines]
    apply getlines_unlines
    intro l hl
    simp only [List.mem_cons, List.mem_singleton, List.not_mem_nil, or_false] at hl
    rcases hl with rfl | rfl | rfl
    · simpa [String.data_append] using h
    · decide
    · decide
  · intro h
    show "StoreDir: " ++ srv.store.nixStore ++ "\nWantMassQuery: 1\nPriority: 30\n" = _
    rw [h]
    decide

/-- C8, at the example store. -/
theorem getNixCacheInfo_three_lines_witness :
    '\n' ∉ exServer.store.nixStore.data ∧ exServer.store.nixStore = "/nix/store" ∧
    getlines (getNixCacheInfo exServer (routed "/nix-cache-info" []) Response.fresh).res.body =
      ["StoreDir: /nix/store", "WantMassQuery: 1", "Priority: 30"] ∧
    (getNixCacheInfo exServer (routed "/nix-cache-info" []) Response.fresh).res.body =
      "StoreDir: /nix/store\nWantMassQuery: 1\nPriority: 30\n" :=
  ⟨by decide, rfl,
    (getNixCacheInfo_three_lines exServer (routed "/nix-cache-info" []) Response.fresh).2.2.2.1
      (by decide),
    (getNixCacheInfo_three_lines exServer (routed "/nix-cache-info" []) Response.fresh).2.2.2.2
      rfl⟩

/-- C10 (amended). `handleException` sets the status to 500, the content type
to `text/plain`, and the body to the first `BUFSIZ - 1` characters of
`Error 500\n` followed by the message: the whole message exactly when
`10 + length < BUFSIZ`. -/
theorem handleException_truncated_body (BUFSIZ : Nat) (req : Request) (res : Response)
    (what : String) :
    (handleException BUFSIZ req res what).status = 500 ∧
    (handleException BUFSIZ req res what).content_type = some "text/plain" ∧
    (handleException BUFSIZ req res what).content_provider = res.content_provider ∧
    (handleException BUFSIZ req res what).body.data =
      ("Error 500\n" ++ what).data.take (BUFSIZ - 1) ∧
    ((handleException BUFSIZ req res what).body = "Error 500\n" ++ what ↔
      10 + what.length < BUFSIZ) := by
  refine ⟨rfl, rfl, rfl, ?_, ?_⟩
  · simp [handleException, Response.set_content, snprintf]
  · have := snprintf_eq_iff BUFSIZ "Error 500\n" what (by decide)
    simpa [handleException, Response.set_content] using this

/-- C10 (as stated, refuted). With `BUFSIZ = 8192` a message of 8182 characters
does not reach the body whole: the body stops after 8191 characters. -/
theorem handleException_long_message_cut :
    (handleException 8192 ⟨"/x.narinfo", ["/x.narinfo", "x"]⟩ Response.fresh
        ⟨List.replicate 8182 'x'⟩).body ≠ "Error 500\n" ++ ⟨List.replicate 8182 'x'⟩ ∧
    (handleException 8192 ⟨"/x.narinfo", ["/x.narinfo", "x"]⟩ Response.fresh
        ⟨List.replicate 8182 'x'⟩).body.length = 8191 := by
  have hlen : (⟨List.replicate 8182 'x'⟩ : String).length = 8182 :=
    List.length_replicate 8182 'x'
  have hpre : ("Error 500\n" : String).length = 10 := by decide
  constructor
  · intro h
    have h2 := (snprintf_eq_iff 8192 "Error 500\n" ⟨List.replicate 8182 'x'⟩ (by decide)).mp h
    rw [hlen, hpre] at h2
    omega
  · show (snprintf 8192 "Error 500\n" ⟨List.replicate 8182 'x'⟩).length = 8191
    rw [snprintf_length, hlen, hpre]
    rfl

/-- C6. For a successful narinfo response whose printed paths and hash have no
newline: without a signing key no line of the body starts with `Sig:`; with a
key the body is the body of the key-less server followed by the line `Sig: `
plus the detached signature of the fingerprint, which is its last line. -/
theorem getNarInfo_sig_line (srv : Server) (req : Request) (res : Response)
    (storePath : StorePath) (info : ValidPathInfo)
    (hp : srv.store.queryPathFromHashPart (req.sub 1) = .ok (some storePath))
    (hi : srv.store.queryPathInfo storePath = .ok info)
    (hh : isHashPart (req.sub 1))
    (hpath : '\n' ∉ (srv.store.printStorePath storePath).data)
    (hrefs : ∀ i ∈ info.references, '\n' ∉ (srv.store.printStorePath i).data)
    (hdrv : ∀ d, info.deriver = some d → '\n' ∉ (srv.store.printStorePath d).data)
    (hhash : '\n' ∉ (srv.store.to_string info.narHash).data) :
    (srv.secretKey = none →
      ∃ body, getNarInfo srv req res = .returned (res.set_content body "text/plain") ∧
        ∀ l ∈ getlines body, ¬ "Sig:".data <+: l.data) ∧
    (∀ key fp, srv.secretKey = some key → srv.store.fingerprint info = .ok fp →
      ∃ body,
        getNarInfo { srv with secretKey := none } req res =
          .returned (res.set_content body "text/plain") ∧
        getNarInfo srv req res = .returned (res.set_content
          (body ++ ("Sig: " ++ srv.store.signDetached key fp ++ "\n")) "text/plain") ∧
        (∀ l ∈ getlines body, ¬ "Sig:".data <+: l.data) ∧
        ('\n' ∉ (srv.store.signDetached key fp).data →
          getlines (body ++ ("Sig: " ++ srv.store.signDetached key fp ++ "\n")) =
            getlines body ++ ["Sig: " ++ srv.store.signDetached key fp])) := by
  have ho := getNarInfo_outcome srv req res storePath info hp hi
  have hprops := docLines_props srv (req.sub 1) storePath info (isHashPart_no_newline _ hh)
    hpath hrefs hdrv hhash
  have hlines : getlines (unlines (docLines srv (req.sub 1) storePath info none)) =
      docLines srv (req.sub 1) storePath info none :=
    getlines_unlines _ fun l hl => (hprops l hl).1
  refine ⟨?_, ?_⟩
  · intro hk
    refine ⟨unlines (docLines srv (req.sub 1) storePath info none), ?_, ?_⟩
    · rw [ho, hk]
    · rw [hlines]
      exact fun l hl => (hprops l hl).2
  · intro key fp hk hf
    refine ⟨unlines (docLines srv (req.sub 1) storePath info none), ?_, ?_, ?_, ?_⟩
    · have ho2 := getNarInfo_outcome { srv with secretKey := none } req res storePath info hp hi
      rw [ho2]
      rfl
    · rw [ho, hk]
      simp only [hf]
      rw [docLines_some, unlines_append, unlines_singleton_append]
    · rw [hlines]
      exact fun l hl => (hprops l hl).2
    · intro hsig
      rw [unlines_singleton_append, ← unlines_append, hlines]
      apply getlines_unlines
      intro l hl
      rcases List.mem_append.mp hl with hl | hl
      · exact (hprops l hl).1
      · rw [List.mem_singleton] at hl
        subst hl
        simp [String.data_append, hsig]

/-- C6, at the example store with a signing key. -/
theorem getNarInfo_sig_line_witness :
    exSigningServer.store.queryPathFromHashPart ((routed "/def456.narinfo" ["def456"]).sub 1) =
        .ok (some exWorld) ∧
    exSigningServer.store.queryPathInfo exWorld = .ok exWorldInfo ∧
    isHashPart ((routed "/def456.narinfo" ["def456"]).sub 1) ∧
    exSigningServer.secretKey = some exKey ∧
    exSigningServer.store.fingerprint exWorldInfo = .ok "1;/nix/store/def456-world;4096" ∧
    ∃ body,
      getNarInfo exServer (routed "/def456.narinfo" ["def456"]) Response.fresh =
        .returned (Response.fresh.set_content body "text/plain") ∧
      getNarInfo exSigningServer (routed "/def456.narinfo" ["def456"]) Response.fresh =
        .returned (Response.fresh.set_content
          (body ++ "Sig: cache.example.org-1:6904;dlrow-654fed/erots/xin/;1\n") "text/plain") :=
  ⟨by decide, by decide, by decide, rfl, by decide,
    ((getNarInfo_sig_line exSigningServer (routed "/def456.narinfo" ["def456"]) Response.fresh
      exWorld exWorldInfo (by decide) (by decide) (by decide) (by decide) (by decide)
      (fun d hd => by cases hd; decide) (by decide)).2 exKey "1;/nix/store/def456-world;4096"
      rfl (by decide)).imp
      fun _ h => ⟨h.1, h.2.1.trans rfl⟩⟩

/-- C9 (amended). The route table dispatches a path to `getNixCacheInfo` exactly
when it is `/nix-cache-info`, to `getNarInfo` exactly when it is
`/<hashpart>.narinfo`, to `getNar` exactly when it is
`/nar/<hashpart>-<narhash>.nar`, to `getNarDeprecated` exactly when it is
`/nar/<hashpart>.nar`, and to `getRealisation` exactly when it is
`/realisations/<doi>.doi`, hashpart and narhash being one or more characters of
`[0-9a-z]` and doi any string without a line terminator, each time with the
captures of that form; every other path reaches no operation and is answered
with the bare 404.  The forms exclude one another, so the first match is the
only one: the two-capture nar form never reaches the deprecated handler and
the single-capture form never reaches the hash-verifying one. -/
theorem routing_dispatch (path : String) (req : Request) :
    (routing path = some (.getNixCacheInfo, req) ↔
      path = "/nix-cache-info" ∧ req = routed path []) ∧
    (routing path = some (.getNarInfo, req) ↔
      ∃ h, isHashPart h ∧ path = "/" ++ h ++ ".narinfo" ∧ req = routed path [h]) ∧
    (routing path = some (.getNar, req) ↔
      ∃ h n, isHashPart h ∧ isHashPart n ∧ path = "/nar/" ++ h ++ "-" ++ n ++ ".nar" ∧
        req = routed path [h, n]) ∧
    (routing path = some (.getNarDeprecated, req) ↔
      ∃ h, isHashPart h ∧ path = "/nar/" ++ h ++ ".nar" ∧ req = routed path [h]) ∧
    (routing path = some (.getRealisation, req) ↔
      ∃ d, noLineTerminator d ∧ path = "/realisations/" ++ d ++ ".doi" ∧
        req = routed path [d]) ∧
    (routing path = none ↔
      path ≠ "/nix-cache-info" ∧
      (¬ ∃ h, isHashPart h ∧ path = "/" ++ h ++ ".narinfo") ∧
      (¬ ∃ h n, isHashPart h ∧ isHashPart n ∧ path = "/nar/" ++ h ++ "-" ++ n ++ ".nar") ∧
      (¬ ∃ h, isHashPart h ∧ path = "/nar/" ++ h ++ ".nar") ∧
      (¬ ∃ d, noLineTerminator d ∧ path = "/realisations/" ++ d ++ ".doi")) ∧
    (routing path = none → ∀ (srv : Server) (BUFSIZ : Nat),
      process_request srv BUFSIZ path =
        { status := 404, body := "", content_type := none, content_provider := none }) ∧
    (∀ h n, isHashPart h → isHashPart n → path = "/nar/" ++ h ++ "-" ++ n ++ ".nar" →
      routing path ≠ some (.getNarDeprecated, req)) ∧
    (∀ h, isHashPart h → path = "/nar/" ++ h ++ ".nar" →
      routing path ≠ some (.getNar, req)) := by
  refine ⟨routing_cacheInfo_iff path req, routing_narInfo_iff path req, routing_nar_iff path req,
    routing_deprecated_iff path req, routing_realisation_iff path req, routing_none_iff path,
    fun h srv BUFSIZ => process_request_unrouted srv BUFSIZ path h, ?_, ?_⟩
  · intro h n hh hn hp hr
    have h1 := (routing_nar_iff path (routed path [h, n])).mpr ⟨h, n, hh, hn, hp, rfl⟩
    rw [h1] at hr
    cases hr
  · intro h hh hp hr
    have h1 := (routing_deprecated_iff path (routed path [h])).mpr ⟨h, hh, hp, rfl⟩
    rw [h1] at hr
    cases hr

/-- C9 (amended), at the path `/nar/abc123-def456.nar`. -/
theorem routing_dispatch_witness :
    isHashPart "abc123" ∧ isHashPart "def456" ∧
    routing "/nar/abc123-def456.nar" ≠
      some (.getNarDeprecated, routed "/nar/abc123-def456.nar" ["abc123"]) :=
  ⟨by decide, by decide,
    (routing_dispatch "/nar/abc123-def456.nar" (routed "/nar/abc123-def456.nar" ["abc123"])
      ).2.2.2.2.2.2.2.1 "abc123" "def456" (by decide) (by decide) (by decide)⟩

/-- C9 (as stated, refuted). The path `/realisations/<doi>.doi` whose doi is
`a`, a newline, `b` matches no pattern: no operation is reached and the answer
is the bare 404. -/
theorem routing_realisation_newline_unrouted :
    "/realisations/a\nb.doi" = "/realisations/" ++ "a\nb" ++ ".doi" ∧
    routing "/realisations/a\nb.doi" = none ∧
    process_request exServer 8192 "/realisations/a\nb.doi" =
      { status := 404, body := "", content_type := none, content_provider := none } := by
  decide

/-- C3 (amended). For a request `/nar/<hashpart>-<narhash>.nar` whose hashpart
resolves: if the narhash capture parses to a hash other than the content hash
of the resolved path, `getNar` answers 404 with `Incorrect NAR hash. Maybe the
path has been recreated.` and installs no content provider; if the capture
does not parse as a hash, the parse error escapes `getNar` and the answer is
500 with `Error 500` and the message, again without content provider. -/
theorem getNar_wrong_hash (srv : Server) (BUFSIZ : Nat) (h n : String)
    (storePath : StorePath) (info : ValidPathInfo)
    (hh : isHashPart h) (hn : isHashPart n)
    (hp : srv.store.queryPathFromHashPart h = .ok (some storePath))
    (hi : srv.store.queryPathInfo storePath = .ok info) :
    (∀ expected, srv.store.parseAny n = .ok expected → expected ≠ info.narHash →
      (∀ res, getNar srv (routed ("/nar/" ++ h ++ "-" ++ n ++ ".nar") [h, n]) res =
        .returned (notFound res "Incorrect NAR hash. Maybe the path has been recreated.\n")) ∧
      process_request srv BUFSIZ ("/nar/" ++ h ++ "-" ++ n ++ ".nar") =
        { status := 404, body := "Incorrect NAR hash. Maybe the path has been recreated.\n",
          content_type := some "text/plain", content_provider := none }) ∧
    (∀ what, srv.store.parseAny n = .error what →
      (∀ res, getNar srv (routed ("/nar/" ++ h ++ "-" ++ n ++ ".nar") [h, n]) res =
        .threw res what) ∧
      process_request srv BUFSIZ ("/nar/" ++ h ++ "-" ++ n ++ ".nar") =
        { status := 500, body := snprintf BUFSIZ "Error 500\n" what,
          content_type := some "text/plain", content_provider := none }) := by
  refine ⟨?_, ?_⟩
  · intro expected hparse hne
    have hg : ∀ res, getNar srv (routed ("/nar/" ++ h ++ "-" ++ n ++ ".nar") [h, n]) res =
        .returned (notFound res "Incorrect NAR hash. Maybe the path has been recreated.\n") := by
      intro res
      rw [getNar_resolved srv _ h n res expected storePath info hparse hp hi,
        if_pos (fun e => hne e.symm)]
    refine ⟨hg, ?_⟩
    rw [process_request_routed srv BUFSIZ _ _ _ _ (routing_nar h n hh hn) (hg Response.fresh)]
    rfl
  · intro what hparse
    have hg : ∀ res, getNar srv (routed ("/nar/" ++ h ++ "-" ++ n ++ ".nar") [h, n]) res =
        .threw res what := fun res => getNar_threw srv _ h n what res hparse
    refine ⟨hg, ?_⟩
    rw [process_request_threw srv BUFSIZ _ _ _ _ _ (routing_nar h n hh hn) (hg Response.fresh)]
    rfl

/-- C3 (amended), at the example store: a well-formed hash that is not the one
recorded for `abc123-hello`. -/
theorem getNar_wrong_hash_witness :
    isHashPart "abc123" ∧
    isHashPart "29hpy5cks18gnx4bjr07fmw3aiqz6dlv29hpy5cks18gnx4bjr07" ∧
    exServer.store.queryPathFromHashPart "abc123" = .ok (some exHello) ∧
    exServer.store.queryPathInfo exHello = .ok exHelloInfo ∧
    exServer.store.parseAny "29hpy5cks18gnx4bjr07fmw3aiqz6dlv29hpy5cks18gnx4bjr07" =
      .ok (exHash 2) ∧
    exHash 2 ≠ exHelloInfo.narHash ∧
    process_request exServer 8192
        ("/nar/" ++ "abc123" ++ "-" ++ "29hpy5cks18gnx4bjr07fmw3aiqz6dlv29hpy5cks18gnx4bjr07" ++
          ".nar") =
      { status := 404, body := "Incorrect NAR hash. Maybe the path has been recreated.\n",
        content_type := some "text/plain", content_provider := none } :=
  ⟨by decide, by decide, by decide, by decide, by decide, by decide,
    ((getNar_wrong_hash exServer 8192 "abc123"
      "29hpy5cks18gnx4bjr07fmw3aiqz6dlv29hpy5cks18gnx4bjr07" exHello exHelloInfo
      (by decide) (by decide) (by decide) (by decide)).1 (exHash 2) (by decide) (by decide)).2⟩

/-- C3 (as stated, refuted). `abc123` resolves and the capture `abc` is a
non-empty string of `[0-9a-z]` that is not the content hash, yet the answer is
500, not 404: `abc` does not parse as a hash. -/
theorem getNar_unparseable_hash_500 :
    isHashPart "abc123" ∧ isHashPart "abc" ∧
    exServer.store.queryPathFromHashPart "abc123" = .ok (some exHello) ∧
    exServer.store.queryPathInfo exHello = .ok exHelloInfo ∧
    exServer.store.to_string exHelloInfo.narHash ≠ "abc" ∧
    process_request exServer 8192 "/nar/abc123-abc.nar" =
      { status := 500,
        body := "Error 500\nhash 'abc' has wrong length for hash type 'sha256'",
        content_type := some "text/plain", content_provider := none } := by
  decide

/-- C4 (amended). A request on one of the four addressed routes whose
identifier does not resolve is answered 404 with the message of the route:
`No such path.` on the narinfo route, on the deprecated nar route, and on the
nar route with hash provided the narhash capture parses as a hash (it is
parsed before the path is resolved); `No such derivation output.` on the
realisations route for a doi that parses and has no realisation. -/
theorem unresolved_is_404 (srv : Server) (BUFSIZ : Nat) :
    (∀ h, isHashPart h → srv.store.queryPathFromHashPart h = .ok none →
      process_request srv BUFSIZ ("/" ++ h ++ ".narinfo") =
        { status := 404, body := "No such path.\n", content_type := some "text/plain",
          content_provider := none }) ∧
    (∀ h n expected, isHashPart h → isHashPart n →
      srv.store.queryPathFromHashPart h = .ok none → srv.store.parseAny n = .ok expected →
      process_request srv BUFSIZ ("/nar/" ++ h ++ "-" ++ n ++ ".nar") =
        { status := 404, body := "No such path.\n", content_type := some "text/plain",
          content_provider := none }) ∧
    (∀ h, isHashPart h → srv.store.queryPathFromHashPart h = .ok none →
      process_request srv BUFSIZ ("/nar/" ++ h ++ ".nar") =
        { status := 404, body := "No such path.\n", content_type := some "text/plain",
          content_provider := none }) ∧
    (∀ d drvOutput, noLineTerminator d → srv.store.parse d = .ok drvOutput →
      srv.store.queryRealisation drvOutput = .ok none →
      process_request srv BUFSIZ ("/realisations/" ++ d ++ ".doi") =
        { status := 404, body := "No such derivation output.\n",
          content_type := some "text/plain", content_provider := none }) := by
  refine ⟨?_, ?_, ?_, ?_⟩
  · intro h hh hp
    have hc : srv.call .getNarInfo (routed ("/" ++ h ++ ".narinfo") [h]) Response.fresh =
        .returned (notFound Response.fresh "No such path.\n") := by
      have e1 : (routed ("/" ++ h ++ ".narinfo") [h]).sub 1 = h := rfl
      simp only [Server.call, getNarInfo, e1, hp]
    rw [process_request_routed srv BUFSIZ _ _ _ _ (routing_narInfo h hh) hc]
    rfl
  · intro h n expected hh hn hp hparse
    have hc : srv.call .getNar (routed ("/nar/" ++ h ++ "-" ++ n ++ ".nar") [h, n])
        Response.fresh = .returned (notFound Response.fresh "No such path.\n") :=
      getNar_unresolved srv _ h n _ expected hparse hp
    rw [process_request_routed srv BUFSIZ _ _ _ _ (routing_nar h n hh hn) hc]
    rfl
  · intro h hh hp
    have hc : srv.call .getNarDeprecated (routed ("/nar/" ++ h ++ ".nar") [h]) Response.fresh =
        .returned (notFound Response.fresh "No such path.\n") := by
      have e1 : (routed ("/nar/" ++ h ++ ".nar") [h]).sub 1 = h := rfl
      simp only [Server.call, getNarDeprecated, e1, hp]
    rw [process_request_routed srv BUFSIZ _ _ _ _ (routing_deprecated h hh) hc]
    rfl
  · intro d drvOutput hd hparse hq
    have hc : srv.call .getRealisation (routed ("/realisations/" ++ d ++ ".doi") [d])
        Response.fresh = .returned (notFound Response.fresh "No such derivation output.\n") := by
      have e1 : (routed ("/realisations/" ++ d ++ ".doi") [d]).sub 1 = d := rfl
      simp only [Server.call, getRealisation, e1, hparse, hq]
    rw [process_request_routed srv BUFSIZ _ _ _ _ (routing_realisation d hd) hc]
    rfl

/-- C4 (amended), at the example store: the unknown hash part `zzz999` on the
nar route with a well-formed hash. -/
theorem unresolved_is_404_witness :
    isHashPart "zzz999" ∧
    isHashPart "29hpy5cks18gnx4bjr07fmw3aiqz6dlv29hpy5cks18gnx4bjr07" ∧
    exServer.store.queryPathFromHashPart "zzz999" = .ok none ∧
    exServer.store.parseAny "29hpy5cks18gnx4bjr07fmw3aiqz6dlv29hpy5cks18gnx4bjr07" =
      .ok (exHash 2) ∧
    process_request exServer 8192
        ("/nar/" ++ "zzz999" ++ "-" ++ "29hpy5cks18gnx4bjr07fmw3aiqz6dlv29hpy5cks18gnx4bjr07" ++
          ".nar") =
      { status := 404, body := "No such path.\n", content_type := some "text/plain",
        content_provider := none } :=
  ⟨by decide, by decide, by decide, by decide,
    (unresolved_is_404 exServer 8192).2.1 "zzz999"
      "29hpy5cks18gnx4bjr07fmw3aiqz6dlv29hpy5cks18gnx4bjr07" (exHash 2)
      (by decide) (by decide) (by decide) (by decide)⟩

/-- C4 (as stated, refuted). `zzz999` does not resolve, but with the narhash
capture `abc` the request on the nar route is answered 500: the capture is
parsed before the path is looked up.  Likewise the doi `zzz999`, which names no
derivation output, is answered 500 on the realisations route. -/
theorem unresolved_nar_bad_hash_500 :
    isHashPart "zzz999" ∧ isHashPart "abc" ∧
    exServer.store.queryPathFromHashPart "zzz999" = .ok none ∧
    process_request exServer 8192 "/nar/zzz999-abc.nar" =
      { status := 500,
        body := "Error 500\nhash 'abc' has wrong length for hash type 'sha256'",
        content_type := some "text/plain", content_provider := none } ∧
    process_request exServer 8192 "/realisations/zzz999.doi" =
      { status := 500, body := "Error 500\nInvalid derivation output id zzz999",
        content_type := some "text/plain", content_provider := none } := by
  decide

/-- C5 (amended). For a request `/realisations/<doi>.doi` whose doi capture
cannot be parsed as a derivation-output identifier, the parse error escapes
`getRealisation`, reaches the top-level exception handler, and the answer has
status 500 (not 404) with body `Error 500` and the message of the error. -/
theorem getRealisation_parse_failure_500 (srv : Server) (BUFSIZ : Nat) (d what : String)
    (hd : noLineTerminator d) (hparse : srv.store.parse d = .error what) :
    (∀ res, getRealisation srv (routed ("/realisations/" ++ d ++ ".doi") [d]) res =
      .threw res what) ∧
    process_request srv BUFSIZ ("/realisations/" ++ d ++ ".doi") =
      handleException BUFSIZ (routed ("/realisations/" ++ d ++ ".doi") [d]) Response.fresh
        what ∧
    process_request srv BUFSIZ ("/realisations/" ++ d ++ ".doi") =
      { status := 500, body := snprintf BUFSIZ "Error 500\n" what,
        content_type := some "text/plain", content_provider := none } := by
  have hg : ∀ res, getRealisation srv (routed ("/realisations/" ++ d ++ ".doi") [d]) res =
      .threw res what := by
    intro res
    have e1 : (routed ("/realisations/" ++ d ++ ".doi") [d]).sub 1 = d := rfl
    simp only [getRealisation, e1, hparse]
  have hpr := process_request_threw srv BUFSIZ _ _ _ _ _ (routing_realisation d hd)
    (hg Response.fresh)
  exact ⟨hg, hpr.trans rfl, hpr⟩

/-- C5 (amended), at the example store: the doi `abc` has no separator. -/
theorem getRealisation_parse_failure_500_witness :
    noLineTerminator "abc" ∧
    exServer.store.parse "abc" = .error "Invalid derivation output id abc" ∧
    process_request exServer 8192 ("/realisations/" ++ "abc" ++ ".doi") =
      { status := 500, body := snprintf 8192 "Error 500\n" "Invalid derivation output id abc",
        content_type := some "text/plain", content_provider := none } :=
  ⟨by decide, by decide,
    (getRealisation_parse_failure_500 exServer 8192 "abc" "Invalid derivation output id abc"
      (by decide) (by decide)).2.2⟩

/-- C5 (as stated, refuted). The doi `abc` lacks the separator `!`, and the
request `/realisations/abc.doi` is answered 500, not 404. -/
theorem getRealisation_no_separator_500 :
    '!' ∉ "abc".data ∧
    process_request exServer 8192 "/realisations/abc.doi" =
      { status := 500, body := "Error 500\nInvalid derivation output id abc",
        content_type := some "text/plain", content_provider := none } := by
  decide

theorem find_key (k v : List Char) (hk : ':' ∉ k) :
    find ": ".data (k ++ ':' :: ' ' :: v) = some k.length := by
  induction k with
  | nil => simp [find, List.isPrefixOf]
  | cons c k ih =>
    have hc : c ≠ ':' := fun e => hk (by simp [e])
    have hk2 : ':' ∉ k := fun e => hk (by simp [e])
    have hc2 : (':' == c) = false := by
      simp only [beq_eq_false_iff_ne, ne_eq]
      exact fun e => hc e.symm
    simp [find, List.isPrefixOf, hc2, ih hk2]

theorem parseItems_fields (size : Nat) (fields result : List (String × String))
    (h : ∀ kv ∈ fields, ':' ∉ kv.1.data ∧ (kv.1 ++ ": " ++ kv.2).length ≤ size) :
    parseItems size (fields.map fun kv => kv.1 ++ ": " ++ kv.2) result =
      .ok (fields.reverse ++ result) := by
  induction fields generalizing result with
  | nil => rfl
  | cons kv fields ih =>
    obtain ⟨hk, hlen⟩ := h kv (by simp)
    have hd : (kv.1 ++ ": " ++ kv.2).data = kv.1.data ++ ':' :: ' ' :: kv.2.data := by
      simp [String.data_append]
    have hl : kv.1.data.length + 2 + kv.2.data.length ≤ size := by
      rw [← String.length_data, hd] at hlen
      simp only [List.length_append, List.length_cons] at hlen
      omega
    have htake : (kv.1.data ++ ':' :: ' ' :: kv.2.data).take kv.1.data.length = kv.1.data :=
      List.take_left' rfl
    have hdrop : (kv.1.data ++ ':' :: ' ' :: kv.2.data).drop (kv.1.data.length + 2) =
        kv.2.data := by
      have e : kv.1.data ++ ':' :: ' ' :: kv.2.data = (kv.1.data ++ [':', ' ']) ++ kv.2.data := by
        simp
      rw [e]
      exact List.drop_left' (by simp)
    simp only [List.map_cons, parseItems, hd, find_key _ _ hk, htake, hdrop]
    rw [List.take_of_length_le (by omega)]
    have hkv : ((⟨kv.1.data⟩ : String), (⟨kv.2.data⟩ : String)) = kv := rfl
    rw [hkv, ih _ fun x hx => h x (by simp [hx])]
    simp

theorem narInfoLines_eq_fields (storePath url narHash : String) (narSize : Nat)
    (references : List String) (deriver sig : Option String) :
    narInfoLines storePath url narHash narSize references deriver sig =
      (narInfoFields storePath url narHash narSize references deriver sig).map
        fun kv => kv.1 ++ ": " ++ kv.2 := by
  have e : ∀ v : String, "StorePath: " ++ v = "StorePath" ++ ": " ++ v ∧
      "URL: " ++ v = "URL" ++ ": " ++ v ∧ "NarHash: " ++ v = "NarHash" ++ ": " ++ v ∧
      "NarSize: " ++ v = "NarSize" ++ ": " ++ v ∧
      "References: " ++ v = "References" ++ ": " ++ v ∧
      "Deriver: " ++ v = "Deriver" ++ ": " ++ v ∧ "Sig: " ++ v = "Sig" ++ ": " ++ v := by
    intro v
    refine ⟨?_, ?_, ?_, ?_, ?_, ?_, ?_⟩ <;> (apply String.ext; simp [String.data_append])
  have ec : "Compression: none" = "Compression" ++ ": " ++ "none" := by decide
  unfold narInfoLines narInfoFields
  cases deriver <;> cases sig <;> by_cases hr : references = [] <;>
    simp [hr, (e _).1, (e _).2.1, (e _).2.2.1, (e _).2.2.2.1, (e _).2.2.2.2.1,
      (e _).2.2.2.2.2.1, (e _).2.2.2.2.2.2, ec]

theorem narInfoFields_keys (storePath url narHash : String) (narSize : Nat)
    (references : List String) (deriver sig : Option String) :
    ∀ kv ∈ narInfoFields storePath url narHash narSize references deriver sig,
      ':' ∉ kv.1.data := by
  intro kv hkv
  unfold narInfoFields at hkv
  rcases List.mem_append.mp hkv with hkv | hkv
  · rcases List.mem_append.mp hkv with hkv | hkv
    · rcases List.mem_append.mp hkv with hkv | hkv
      · simp only [List.mem_cons, List.mem_singleton, List.not_mem_nil, or_false] at hkv
        rcases hkv with rfl | rfl | rfl | rfl | rfl <;> (dsimp only; decide)
      · split at hkv
        · cases hkv
        · rw [List.mem_singleton] at hkv
          subst hkv
          dsimp only
          decide
    · cases deriver with
      | none => cases hkv
      | some d =>
        rw [List.mem_singleton] at hkv
        subst hkv
        dsimp only
        decide
  · cases sig with
    | none => cases hkv
    | some sg =>
      rw [List.mem_singleton] at hkv
      subst hkv
      dsimp only
      decide

theorem length_le_unlines (ls : List String) : ∀ l ∈ ls, l.length ≤ (unlines ls).length := by
  induction ls with
  | nil => intro l hl; cases hl
  | cons x xs ih =>
    intro l hl
    simp only [unlines, String.length_append]
    rcases List.mem_cons.mp hl with rfl | hl
    · omega
    · have := ih l hl
      omega

theorem field_url (storePath url narHash : String) (narSize : Nat)
    (references : List String) (deriver sig : Option String) :
    field (narInfoFields storePath url narHash narSize references deriver sig).reverse "URL" =
        url ∧
    field (narInfoFields storePath url narHash narSize references deriver sig).reverse
        "NarHash" = narHash := by
  unfold narInfoFields field
  cases deriver <;> cases sig <;> by_cases hr : references = [] <;>
    simp +decide [hr, List.lookup]

/-- A document whose lines hold no newline reads back, through `parseInfo`, as
its fields. -/
theorem parseInfo_document (storePath url narHash : String) (narSize : Nat)
    (references : List String) (deriver sig : Option String)
    (hnl : ∀ l ∈ narInfoLines storePath url narHash narSize references deriver sig,
      '\n' ∉ l.data) :
    parseInfo (unlines (narInfoLines storePath url narHash narSize references deriver sig)) =
      .ok (narInfoFields storePath url narHash narSize references deriver sig).reverse := by
  unfold parseInfo
  rw [getlines_unlines _ hnl]
  have hlen := length_le_unlines
    (narInfoLines storePath url narHash narSize references deriver sig)
  generalize (unlines (narInfoLines storePath url narHash narSize references deriver
    sig)).length = size at hlen
  rw [narInfoLines_eq_fields] at hlen ⊢
  rw [parseItems_fields size _ []
    (fun kv hkv => ⟨narInfoFields_keys _ _ _ _ _ _ _ kv hkv,
      hlen _ (List.mem_map.mpr ⟨kv, hkv, rfl⟩)⟩)]
  simp

/-- C2. For a hash part `h` that resolves and for which a document is built
(no key, or the fingerprint is computed): `GET /<h>.narinfo` is answered 200
with a document whose second line is its `URL` field and whose fourth is its
`NarHash` field, and which `parseInfo` reads back with these two fields when
the printed paths and the signature hold no newline.  The path `/` plus that
URL field is dispatched to `getNar` with captures `(h, narhash)`; given that
the printed base-32 hash is a non-empty string of `[0-9a-z]` which parses back
to the stored hash, `getNar` passes its hash check and the request is answered
200 with the chunked provider over the same resolved path, whose output is
what `dumpPath` writes for that path; given that the recorded hash is the hash
of that serialization, the content has the hash of the `NarHash` field. -/
theorem narinfo_url_fetch (srv : Server) (BUFSIZ : Nat) (h : String) (storePath : StorePath)
    (info : ValidPathInfo) (hashOf : String → Hash)
    (hh : isHashPart h)
    (hp : srv.store.queryPathFromHashPart h = .ok (some storePath))
    (hi : srv.store.queryPathInfo storePath = .ok info)
    (hdoc : srv.secretKey = none ∨ ∃ fp, srv.store.fingerprint info = .ok fp)
    (hprint : isHashPart (srv.store.to_string info.narHash))
    (hparse : srv.store.parseAny (srv.store.to_string info.narHash) = .ok info.narHash)
    (hrec : hashOf (String.join
      (srv.store.dumpPath (srv.store.printStorePath storePath)).chunks) = info.narHash) :
    ∃ doc url narHash : String,
      process_request srv BUFSIZ ("/" ++ h ++ ".narinfo") =
        { status := 200, body := doc, content_type := some "text/plain",
          content_provider := none } ∧
      (∃ first rest, doc = unlines
        (first :: ("URL: " ++ url) :: "Compression: none" :: ("NarHash: " ++ narHash) :: rest)) ∧
      ('\n' ∉ (srv.store.printStorePath storePath).data →
        (∀ i ∈ info.references, '\n' ∉ (srv.store.printStorePath i).data) →
        (∀ d, info.deriver = some d → '\n' ∉ (srv.store.printStorePath d).data) →
        (∀ key fp, srv.secretKey = some key → srv.store.fingerprint info = .ok fp →
          '\n' ∉ (srv.store.signDetached key fp).data) →
        ∃ fields, parseInfo doc = .ok fields ∧ field fields "URL" = url ∧
          field fields "NarHash" = narHash) ∧
      routing ("/" ++ url) = some (.getNar, routed ("/" ++ url) [h, narHash]) ∧
      getNar srv (routed ("/" ++ url) [h, narHash]) Response.fresh =
        .returned (Response.fresh.set_chunked_content_provider "text/plain" storePath) ∧
      process_request srv BUFSIZ ("/" ++ url) =
        { status := 200, body := "", content_type := some "text/plain",
          content_provider := some storePath } ∧
      (contentProvider srv storePath ⟨"", false⟩).2 =
        ⟨String.join (srv.store.dumpPath (srv.store.printStorePath storePath)).chunks, true⟩ ∧
      srv.store.to_string (hashOf (contentProvider srv storePath ⟨"", false⟩).2.written) =
        narHash := by
  -- the signature line of the document, if any
  obtain ⟨sig, hsig, hret⟩ : ∃ sig : Option String,
      (∀ sg, sig = some sg → ∃ key fp, srv.secretKey = some key ∧
        srv.store.fingerprint info = .ok fp ∧ sg = srv.store.signDetached key fp) ∧
      getNarInfo srv (routed ("/" ++ h ++ ".narinfo") [h]) Response.fresh =
        .returned (Response.fresh.set_content
          (unlines (docLines srv h storePath info sig)) "text/plain") := by
    have ho := getNarInfo_outcome srv (routed ("/" ++ h ++ ".narinfo") [h]) Response.fresh
      storePath info hp hi
    cases hk : srv.secretKey with
    | none =>
      refine ⟨none, (fun sg e => by cases e), ?_⟩
      rw [ho, hk]
      rfl
    | some key =>
      rcases hdoc with hnone | ⟨fp, hf⟩
      · rw [hk] at hnone
        cases hnone
      · refine ⟨some (srv.store.signDetached key fp), ?_, ?_⟩
        · intro sg e
          cases e
          exact ⟨key, fp, rfl, hf, rfl⟩
        · rw [ho, hk]
          simp only [hf]
          rfl
  have hg : ∀ path, getNar srv (routed path [h, srv.store.to_string info.narHash])
      Response.fresh =
      .returned (Response.fresh.set_chunked_content_provider "text/plain" storePath) := by
    intro path
    rw [getNar_resolved srv path h _ _ info.narHash storePath info hparse hp hi]
    simp
  have hr := routing_nar h (srv.store.to_string info.narHash) hh hprint
  rw [← nar_path_eq] at hr
  refine ⟨unlines (docLines srv h storePath info sig),
    "nar/" ++ h ++ "-" ++ srv.store.to_string info.narHash ++ ".nar",
    srv.store.to_string info.narHash, ?_, ⟨_, _, rfl⟩, ?_, hr, hg _, ?_,
    contentProvider_written srv storePath, ?_⟩
  · rw [process_request_routed srv BUFSIZ _ _ _ _ (routing_narInfo h hh) hret]
    rfl
  · intro hpath hrefs hdrv hsg
    have hnone := docLines_props srv h storePath info (isHashPart_no_newline _ hh) hpath hrefs
      hdrv (isHashPart_no_newline _ hprint)
    have hnl : ∀ l ∈ docLines srv h storePath info sig, '\n' ∉ l.data := by
      cases sig with
      | none => exact fun l hl => (hnone l hl).1
      | some sg =>
        obtain ⟨key, fp, hk, hf, rfl⟩ := hsig sg rfl
        intro l hl
        rw [docLines_some] at hl
        rcases List.mem_append.mp hl with hl | hl
        · exact (hnone l hl).1
        · rw [List.mem_singleton] at hl
          subst hl
          have := hsg key fp hk hf
          simp [String.data_append, this]
    refine ⟨_, parseInfo_document _ _ _ _ _ _ _ hnl, (field_url _ _ _ _ _ _ _).1,
      (field_url _ _ _ _ _ _ _).2⟩
  · rw [process_request_routed srv BUFSIZ _ _ _ _ hr (hg _)]
    rfl
  · rw [contentProvider_written, hrec]

set_option maxRecDepth 100000 in
/-- C2, at the example store: the document of `abc123-hello` is fetched, read
back with `parseInfo`, and the URL it announces is fetched. -/
theorem narinfo_url_fetch_witness :
    isHashPart "abc123" ∧
    exServer.store.queryPathFromHashPart "abc123" = .ok (some exHello) ∧
    exServer.store.queryPathInfo exHello = .ok exHelloInfo ∧
    exServer.secretKey = none ∧
    isHashPart (exServer.store.to_string exHelloInfo.narHash) ∧
    exServer.store.parseAny (exServer.store.to_string exHelloInfo.narHash) =
      .ok exHelloInfo.narHash ∧
    exHashOf (String.join
      (exServer.store.dumpPath (exServer.store.printStorePath exHello)).chunks) =
      exHelloInfo.narHash ∧
    ∃ doc url narHash : String,
      process_request exServer 8192 ("/" ++ "abc123" ++ ".narinfo") =
        { status := 200, body := doc, content_type := some "text/plain",
          content_provider := none } ∧
      (∃ fields, parseInfo doc = .ok fields ∧ field fields "URL" = url ∧
        field fields "NarHash" = narHash) ∧
      routing ("/" ++ url) = some (.getNar, routed ("/" ++ url) ["abc123", narHash]) ∧
      process_request exServer 8192 ("/" ++ url) =
        { status := 200, body := "", content_type := some "text/plain",
          content_provider := some exHello } ∧
      exServer.store.to_string
          (exHashOf (contentProvider exServer exHello ⟨"", false⟩).2.written) = narHash :=
  ⟨by decide, by decide, by decide, rfl, by decide, by decide, by decide,
    (narinfo_url_fetch exServer 8192 "abc123" exHello exHelloInfo exHashOf (by decide)
      (by decide) (by decide) (Or.inl rfl) (by decide) (by decide) (by decide)).imp
      fun _ hdoc => hdoc.imp fun _ hurl => hurl.imp fun _ hc =>
        ⟨hc.1, hc.2.2.1 (by decide) (by decide) (fun d hd => by cases hd)
          (fun _ _ hk => by cases hk), hc.2.2.2.1, hc.2.2.2.2.2.1, hc.2.2.2.2.2.2.2⟩⟩

/-! ## The `--listen` flag -/

theorem isdigit_iff (c : Char) : isdigit c = true ↔ '0' ≤ c ∧ c ≤ '9' := by
  simp only [isdigit, Bool.and_eq_true, decide_eq_true_eq]
  rfl

theorem isdigit_ne (c x : Char) (h : isdigit c = true) (hx : isdigit x = false) : c ≠ x := by
  intro e
  rw [e, hx] at h
  cases h

theorem isdigit_not_isspace (c : Char) (h : isdigit c = true) : isspace c = false := by
  have h1 := isdigit_ne c ' ' h (by decide)
  have h2 := isdigit_ne c '\t' h (by decide)
  have h3 := isdigit_ne c '\n' h (by decide)
  have h4 := isdigit_ne c '\x0b' h (by decide)
  have h5 := isdigit_ne c '\x0c' h (by decide)
  have h6 := isdigit_ne c '\r' h (by decide)
  simp [isspace, h1, h2, h3, h4, h5, h6]

theorem rfind_none (s : List Char) (c : Char) (h : c ∉ s) : rfind s c = none := by
  induction s with
  | nil => rfl
  | cons d s ih =>
    have hd : d ≠ c := fun e => h (by simp [e])
    have hs : c ∉ s := fun e => h (by simp [e])
    simp [rfind, ih hs, hd]

theorem rfind_eq_none (s : List Char) (c : Char) (h : rfind s c = none) : c ∉ s := by
  induction s with
  | nil => simp
  | cons d s ih =>
    simp only [rfind] at h
    cases hr : rfind s c with
    | some i => rw [hr] at h; cases h
    | none =>
      rw [hr] at h
      simp only [] at h
      by_cases hd : d = c
      · simp [hd] at h
      · intro hm
        rcases List.mem_cons.mp hm with e | e
        · exact hd e.symm
        · exact ih hr e

theorem rfind_append (a b : List Char) (c : Char) (h : c ∉ b) :
    rfind (a ++ c :: b) c = some a.length := by
  induction a with
  | nil => simp [rfind, rfind_none b c h]
  | cons d a ih => simp [rfind, ih]

theorem getD_append_cons (a b : List Char) (c d : Char) :
    (a ++ c :: b).getD a.length d = c := by
  induction a with
  | nil => rfl
  | cons x a ih => simpa using ih

theorem isDecimal_digits (p : String) (hp : isDecimal p) : ∀ c ∈ p.data, isdigit c = true :=
  fun c hc => (isdigit_iff c).mpr (hp.2 c hc)

theorem isDecimal_no_colon (p : String) (hp : isDecimal p) : ':' ∉ p.data :=
  fun hm => isdigit_ne ':' ':' (isDecimal_digits p hp _ hm) (by decide) rfl

theorem stoi_decimal (p : String) (hp : isDecimal p) :
    stoi p = if decimalValue p > 2147483647 then .error .out_of_range
      else .ok (decimalValue p : Int) := by
  have hall := isDecimal_digits p hp
  obtain ⟨d, t, hdt⟩ := List.exists_cons_of_ne_nil hp.1
  have hd : isdigit d = true := hall d (by rw [hdt]; simp)
  have hdrop : p.data.dropWhile isspace = p.data := by
    rw [hdt, List.dropWhile_cons, isdigit_not_isspace d hd]
    simp
  have hm : ¬ (p.data.head? = some '-' ∨ p.data.head? = some '+') := by
    rw [hdt]
    simp only [List.head?_cons, Option.some.injEq, not_or]
    exact ⟨isdigit_ne d '-' hd (by decide), isdigit_ne d '+' hd (by decide)⟩
  have hminus : ¬ p.data.head? = some '-' := fun h => hm (Or.inl h)
  have htake : p.data.takeWhile isdigit = p.data := List.takeWhile_eq_self_iff.mpr hall
  unfold stoi
  simp only [hdrop]
  rw [if_neg hm, htake, if_neg hp.1, if_neg hminus]
  unfold decimalValue
  by_cases hv : digitsValue p.data > 2147483647
  · rw [if_pos hv, if_pos (Or.inr (by exact_mod_cast hv))]
  · rw [if_neg hv, if_neg]
    intro h
    rcases h with h | h
    · have : (0 : Int) ≤ (digitsValue p.data : Int) := Int.ofNat_nonneg _
      omega
    · exact hv (by exact_mod_cast h)


theorem substrFrom_split (s : String) (pre : List Char) (port : String)
    (hs : s.data = pre ++ ':' :: port.data) : substrFrom s (pre.length + 1) = .ok port := by
  have hlen : s.length = pre.length + 1 + port.data.length := by
    rw [← String.length_data, hs, List.length_append, List.length_cons]
    omega
  have hdrop : s.data.drop (pre.length + 1) = port.data := by
    rw [hs]
    have e : pre ++ ':' :: port.data = (pre ++ [':']) ++ port.data := by simp
    rw [e]
    exact List.drop_left' (by simp)
  unfold substrFrom
  rw [if_neg (by omega), hdrop]

/-- The handler on an argument cut at its last colon, the port being decimal. -/
theorem listen_of_split (variant : Variant) (args : MyArgs) (s : String) (pre : List Char)
    (port : String) (hs : s.data = pre ++ ':' :: port.data) (hp : isDecimal port) :
    MyArgs.listen variant args s =
      if decimalValue port > 2147483647 then .error .out_of_range
      else if (decimalValue port : Int) > 65535 ∨
          variant.belowRange (decimalValue port : Int) = true then
        .error (.UsageError "Invalid port number")
      else if pre.length = 0 then .error .out_of_bounds
      else
        match substr s (if s.data.getD 0 '\x00' = '[' then 1 else 0)
            (if s.data.getD (pre.length - 1) '\x00' = ']' then
              (pre.length + 2 ^ 64 - 2) % 2 ^ 64
            else pre.length - 1) with
        | .error e => .error e
        | .ok host => .ok { port := decimalValue port % 2 ^ 16, host := host } := by
  have hr : rfind s.data ':' = some pre.length := by
    rw [hs]
    exact rfind_append pre port.data ':' (isDecimal_no_colon port hp)
  unfold MyArgs.listen
  simp only [hr, substrFrom_split s pre port hs, stoi_decimal port hp]
  by_cases hv : decimalValue port > 2147483647
  · simp only [hv, if_true]
  · simp only [hv, if_false]
    by_cases hb : (decimalValue port : Int) > 65535 ∨
        variant.belowRange (decimalValue port : Int) = true
    · rw [if_pos hb, if_pos hb]
    · rw [if_neg hb, if_neg hb]
      simp only [Int.toNat_ofNat]

/-- An argument without a colon is refused with the usage error. -/
theorem listen_no_colon (variant : Variant) (args : MyArgs) (s : String) (h : ':' ∉ s.data) :
    MyArgs.listen variant args s =
      .error (.UsageError "Invalid listen address. Expected: host:port") := by
  unfold MyArgs.listen
  rw [rfind_none s.data ':' h]

/-- A decimal port above 65535 is refused whatever precedes the colon: with
`Invalid port number` when it fits an `int`, with `std::out_of_range` from
`std::stoi` when it does not. -/
theorem listen_port_above (variant : Variant) (args : MyArgs) (pre port : String)
    (hp : isDecimal port) (hv : 65535 < decimalValue port) :
    MyArgs.listen variant args (pre ++ ":" ++ port) =
      if decimalValue port ≤ 2147483647 then .error (.UsageError "Invalid port number")
      else .error .out_of_range := by
  rw [listen_of_split variant args _ pre.data port (by simp [String.data_append]) hp]
  by_cases h : decimalValue port ≤ 2147483647
  · rw [if_neg (by omega), if_pos (Or.inl (by exact_mod_cast hv)), if_pos h]
  · rw [if_pos (by omega), if_neg h]

/-- The bracketed form: the port is set and the host is exactly what stands
between the brackets. -/
theorem listen_bracketed (variant : Variant) (args : MyArgs) (host port : String)
    (hp : isDecimal port) (hlo : 1 ≤ decimalValue port) (hhi : decimalValue port ≤ 65535)
    (hsize : host.length < 2 ^ 64) :
    MyArgs.listen variant args ("[" ++ host ++ "]:" ++ port) =
      .ok { port := decimalValue port, host := host } := by
  have hs : ("[" ++ host ++ "]:" ++ port).data =
      ('[' :: host.data ++ [']']) ++ ':' :: port.data := by
    simp [String.data_append]
  rw [listen_of_split variant args _ _ port hs hp]
  have hb : ¬ ((decimalValue port : Int) > 65535 ∨
      variant.belowRange (decimalValue port : Int) = true) := by
    intro h
    rcases h with h | h
    · have : decimalValue port > 65535 := by exact_mod_cast h
      omega
    · cases variant <;> simp [Variant.belowRange] at h <;> omega
  rw [if_neg (by omega), if_neg hb, if_neg (by simp)]
  have h0 : ("[" ++ host ++ "]:" ++ port).data.getD 0 '\x00' = '[' := by
    rw [hs]; rfl
  have hlast : ("[" ++ host ++ "]:" ++ port).data.getD
      (('[' :: host.data ++ [']']).length - 1) '\x00' = ']' := by
    have e : ('[' :: host.data ++ [']']) ++ ':' :: port.data =
        ('[' :: host.data) ++ ']' :: (':' :: port.data) := by simp
    have e2 : ('[' :: host.data ++ [']']).length - 1 = ('[' :: host.data).length := by simp
    rw [hs, e, e2]
    exact getD_append_cons _ _ _ _
  rw [h0, hlast, if_pos rfl, if_pos rfl]
  have hend : (('[' :: host.data ++ [']']).length + 2 ^ 64 - 2) % 2 ^ 64 = host.data.length := by
    have hl : ('[' :: host.data ++ [']']).length = host.data.length + 2 := by simp
    have hsz : host.data.length < 2 ^ 64 := by rw [String.length_data]; exact hsize
    rw [hl]
    have e3 : host.data.length + 2 + 2 ^ 64 - 2 = host.data.length + 2 ^ 64 := by omega
    rw [e3, Nat.add_mod_right, Nat.mod_eq_of_lt hsz]
  rw [hend]
  have hsub : substr ("[" ++ host ++ "]:" ++ port) 1 host.data.length = .ok host := by
    unfold substr
    have hlen : ("[" ++ host ++ "]:" ++ port).length ≥ 1 := by
      rw [← String.length_data, hs]; simp
    rw [if_neg (by omega)]
    have hd : ("[" ++ host ++ "]:" ++ port).data.drop 1 =
        host.data ++ (']' :: ':' :: port.data) := by
      rw [hs]; simp
    rw [hd, List.take_left']
    rfl
  rw [hsub]
  simp only []
  rw [Nat.mod_eq_of_lt (by omega)]


/-- The plain form: the port is set, but the host loses its last character,
the count handed to `substr` being one less than the length of the host. -/
theorem listen_plain (variant : Variant) (args : MyArgs) (host port : String)
    (hp : isDecimal port) (hlo : 1 ≤ decimalValue port) (hhi : decimalValue port ≤ 65535)
    (hne : host.data ≠ []) (hopen : host.data.head? ≠ some '[')
    (hclose : host.data.getLast? ≠ some ']') :
    MyArgs.listen variant args (host ++ ":" ++ port) =
      .ok { port := decimalValue port, host := ⟨host.data.dropLast⟩ } := by
  have hs : (host ++ ":" ++ port).data = host.data ++ ':' :: port.data := by
    simp [String.data_append]
  rw [listen_of_split variant args _ _ port hs hp]
  have hb : ¬ ((decimalValue port : Int) > 65535 ∨
      variant.belowRange (decimalValue port : Int) = true) := by
    intro h
    rcases h with h | h
    · have : decimalValue port > 65535 := by exact_mod_cast h
      omega
    · cases variant <;> simp [Variant.belowRange] at h <;> omega
  have hlen : host.data.length ≠ 0 := fun h => hne (List.length_eq_zero.mp h)
  rw [if_neg (by omega), if_neg hb, if_neg hlen]
  obtain ⟨a, t, hat⟩ := List.exists_cons_of_ne_nil hne
  have h0 : ¬ (host ++ ":" ++ port).data.getD 0 '\x00' = '[' := by
    rw [hs, hat]
    intro h
    apply hopen
    rw [hat]
    simpa using h
  have hinit : host.data = host.data.dropLast ++ [host.data.getLast hne] :=
    (List.dropLast_append_getLast hne).symm
  have hlast : ¬ (host ++ ":" ++ port).data.getD (host.data.length - 1) '\x00' = ']' := by
    intro h
    apply hclose
    have e : host.data ++ ':' :: port.data =
        host.data.dropLast ++ host.data.getLast hne :: (':' :: port.data) := by
      conv_lhs => rw [hinit]
      simp
    have e2 : host.data.length - 1 = host.data.dropLast.length := by simp
    rw [hs, e, e2, getD_append_cons] at h
    rw [List.getLast?_eq_getLast _ hne, h]
  rw [if_neg h0, if_neg hlast]
  have hsub : substr (host ++ ":" ++ port) 0 (host.data.length - 1) =
      .ok ⟨host.data.dropLast⟩ := by
    unfold substr
    rw [if_neg (by omega), hs, List.drop_zero, List.dropLast_eq_take,
      List.take_append_of_le_length (by omega)]
  rw [hsub]
  simp only []
  rw [Nat.mod_eq_of_lt (by omega)]

/-- In the plain form the host the handler stores is never the host given. -/
theorem listen_plain_ne (host : String) (hne : host.data ≠ []) :
    (⟨host.data.dropLast⟩ : String) ≠ host := by
  intro h
  have h2 := congrArg String.length h
  rw [String.length_mk, List.length_dropLast, ← String.length_data] at h2
  have : host.data.length ≠ 0 := fun e => hne (List.length_eq_zero.mp e)
  omega

/-- C11 (the code at the failing input). Given `localhost:8080`, the handler of
either source sets the port to 8080 but the host to `localhos`, one character
short of what stands before the last colon; the bracketed form of the same
host is stored whole.  Given a port that does not fit an `int`, no usage error
is raised: `std::stoi` throws `std::out_of_range`. -/
theorem listen_plain_host_cut :
    MyArgs.listen .main_cpp MyArgs.initial "localhost:8080" =
      .ok { port := 8080, host := "localhos" } ∧
    MyArgs.listen .nix_serve_cpp MyArgs.initial "localhost:8080" =
      .ok { port := 8080, host := "localhos" } ∧
    MyArgs.listen .main_cpp MyArgs.initial "[localhost]:8080" =
      .ok { port := 8080, host := "localhost" } ∧
    MyArgs.listen .main_cpp MyArgs.initial "localhost:4294967296" = .error .out_of_range := by
  decide

end NixServe
